import Mathlib

/-!
Verification of the core simulation of the `GameEngine` class
(`src/unnamed/part_000`): the structure-of-arrays drone store, the
LOD stride scheduler, the path sampler, the squad command system and
the missile/melee damage resolver.

Embedding conventions:
* JavaScript numbers are modelled as exact rationals (`ℚ`); indices and
  counters as `ℕ`/`ℤ`.  `Math.floor` is `Int.floor`, `%` on non-negative
  integers is `Nat.mod`.
* `THREE.Vector3` is `Vec3` (three rationals).  Squared distances and dot
  products are exact rational arithmetic, translated literally.
* The Euclidean length `Math.sqrt`-based operations (`distanceTo`,
  `normalize`) are irrational; every function that needs them takes an
  explicit distance oracle `d : Vec3 → Vec3 → ℚ` standing for the metric,
  and conditions of the form `dot > -0.2` between two normalized vectors
  are translated to their exact squared rational equivalents.
* `Math.random()` samples are passed in as explicit parameters.
-/

/-- A `THREE.Vector3` with exact rational coordinates. -/
structure Vec3 where
  x : ℚ
  y : ℚ
  z : ℚ
deriving DecidableEq, Repr

instance : Zero Vec3 := ⟨⟨0, 0, 0⟩⟩

instance : Add Vec3 := ⟨fun a b => ⟨a.x + b.x, a.y + b.y, a.z + b.z⟩⟩

instance : Sub Vec3 := ⟨fun a b => ⟨a.x - b.x, a.y - b.y, a.z - b.z⟩⟩

instance : Neg Vec3 := ⟨fun a => ⟨-a.x, -a.y, -a.z⟩⟩

instance : SMul ℚ Vec3 := ⟨fun c a => ⟨c * a.x, c * a.y, c * a.z⟩⟩

/-- Translation of `THREE.Vector3.dot`. -/
def dot3 (a b : Vec3) : ℚ := a.x * b.x + a.y * b.y + a.z * b.z

/-- Translation of `THREE.Vector3.lengthSq`. -/
def normSq (a : Vec3) : ℚ := dot3 a a

/-- Translation of `THREE.Vector3.distanceToSquared`. -/
def distSq (a b : Vec3) : ℚ := normSq (a - b)

/-- Translation of `new THREE.Vector3().lerpVectors(p, q, alpha)`, which is `p + (q - p) * alpha`. -/
def lerpV (p q : Vec3) (alpha : ℚ) : Vec3 := p + alpha • (q - p)

/-- Translation of `pos.addScaledVector(dir.subVectors(target, pos).normalize(), move)`,
with `d` the Euclidean-distance oracle: when `d pos target` is the true
length of `target - pos` this is exactly a step of length `move` toward
the target.  `THREE.normalize` maps the zero vector to itself, matched
here by `ℚ` division by zero being zero. -/
def moveToward (d : Vec3 → Vec3 → ℚ) (pos target : Vec3) (move : ℚ) : Vec3 :=
  pos + (move / d pos target) • (target - pos)

section Stride

/-!
## LOD stride scheduling (`updateDrones`, lines 1190–1204 and 1362–1378)

The foreground loop runs `for(let i=fgOffset; i<visibleCap; i+=fgStride)`
with `fgOffset = frame % fgStride`, so on frame `f` drone `i` is updated
iff `i % stride = f % stride`; the background loop does the same on the
index `i - visibleCap` of the background population.  Each update moves
the drone by `droneSpeed * 20 * dt * stride`.
-/

/-- The `fgStride` selection (lines 1198–1201): stride `⌈visibleCap/50000⌉`
when not lag-optimized and the foreground exceeds the 50 000 budget. -/
def fgStride (lagOptimization : Bool) (visibleCap : ℕ) : ℕ :=
  if ¬lagOptimization ∧ 50000 < visibleCap then (visibleCap + 50000 - 1) / 50000 else 1

/-- Background stride (line 1371): `max(1, ⌈bgCount/10000⌉)`. -/
def bgStride (bgCount : ℕ) : ℕ := max 1 ((bgCount + 10000 - 1) / 10000)

/-- Whether the stride loop touches population index `idx` on frame
`frame`: the loop starts at `frame % stride` and steps by `stride`. -/
def droneUpdatedOnFrame (stride frame idx : ℕ) : Bool := idx % stride = frame % stride

/-- Number of frames among `0, …, n-1` on which the stride loop updates
population index `i`. -/
def strideUpdates (k i : ℕ) : ℕ → ℕ
  | 0 => 0
  | n + 1 => strideUpdates k i n + (if droneUpdatedOnFrame k n i then 1 else 0)

/-- Per-update movement budget `fgMove`/`bgMove` (lines 1204, 1373):
`droneSpeed * 20 * dt * stride`. -/
def strideMove (droneSpeed dt : ℚ) (stride : ℕ) : ℚ := droneSpeed * 20 * dt * stride

/-- Net displacement of a drone that steers in a straight line toward a
fixed distant target over `n` frames under stride `k`: it advances its
full movement budget on exactly the frames the stride loop selects. -/
def netDisplacement (droneSpeed dt : ℚ) (k i n : ℕ) : ℚ :=
  strideMove droneSpeed dt k * strideUpdates k i n

theorem strideUpdates_closed (k i : ℕ) (hk : 0 < k) :
    ∀ n, strideUpdates k i n = n / k + (if i % k < n % k then 1 else 0) := by
  intro n
  induction n with
  | zero => simp [strideUpdates]
  | succ n ih =>
    have hs : n % k < k := Nat.mod_lt _ hk
    have hik : i % k < k := Nat.mod_lt _ hk
    rw [strideUpdates, ih]
    rcases Nat.lt_or_ge (n % k + 1) k with hlt | hge
    · have hrep : n + 1 = n % k + 1 + n / k * k := by
        conv_lhs => rw [← Nat.div_add_mod n k]
        ring
      have hdiv : (n + 1) / k = n / k := by
        rw [hrep, Nat.add_mul_div_right _ _ hk, Nat.div_eq_of_lt hlt, Nat.zero_add]
      have hmod : (n + 1) % k = n % k + 1 := by
        rw [hrep, Nat.add_mul_mod_self_right, Nat.mod_eq_of_lt hlt]
      rw [hdiv, hmod, droneUpdatedOnFrame]
      simp only [decide_eq_true_eq]
      clear hrep
      split_ifs <;> omega
    · have hk1 : n % k + 1 = k := by omega
      have hrep : n + 1 = (n / k + 1) * k := by
        conv_lhs => rw [← Nat.div_add_mod n k]
        rw [Nat.add_assoc, hk1]
        ring
      have hdiv : (n + 1) / k = n / k + 1 := by rw [hrep, Nat.mul_div_cancel _ hk]
      have hmod : (n + 1) % k = 0 := by rw [hrep, Nat.mul_mod_left]
      rw [hdiv, hmod, droneUpdatedOnFrame]
      simp only [decide_eq_true_eq]
      clear hrep
      split_ifs <;> omega

theorem strideUpdates_one (i n : ℕ) : strideUpdates 1 i n = n := by
  rw [strideUpdates_closed 1 i Nat.one_pos n]
  simp [Nat.mod_one]

/-- Integer form of stride compensation: over `n` frames, the number of
compensated steps times the stride differs from `n` by less than one
stride. -/
theorem strideUpdates_mul_near (k i n : ℕ) (hk : 0 < k) :
    (k * strideUpdates k i n : ℤ) ≤ n + (k - 1) ∧
      (n : ℤ) - (k - 1) ≤ k * strideUpdates k i n := by
  have h1 : k * strideUpdates k i n = k * (n / k) + (if i % k < n % k then k else 0) := by
    rw [strideUpdates_closed k i hk n, Nat.mul_add]
    split_ifs <;> simp
  have hqr : k * (n / k) + n % k = n := Nat.div_add_mod n k
  have hs : n % k < k := Nat.mod_lt _ hk
  refine ⟨?_, ?_⟩ <;> · split_ifs at h1 <;> omega

theorem netDisplacement_stride_bound (speed dt : ℚ) (k i n : ℕ)
    (hsp : 0 ≤ speed) (hdt : 0 ≤ dt) (hk : 0 < k) :
    |netDisplacement speed dt k i n - netDisplacement speed dt 1 i n| ≤
      speed * 20 * dt * ((k : ℚ) - 1) := by
  obtain ⟨h1, h2⟩ := strideUpdates_mul_near k i n hk
  have hzabs : |(k * strideUpdates k i n : ℤ) - n| ≤ (k : ℤ) - 1 :=
    abs_le.mpr ⟨by omega, by omega⟩
  have hqabs : |(k : ℚ) * strideUpdates k i n - n| ≤ (k : ℚ) - 1 := by
    exact_mod_cast hzabs
  have hrw : netDisplacement speed dt k i n - netDisplacement speed dt 1 i n
      = (speed * 20 * dt) * ((k : ℚ) * strideUpdates k i n - n) := by
    unfold netDisplacement strideMove
    rw [strideUpdates_one]
    push_cast
    ring
  rw [hrw, abs_mul, abs_of_nonneg (by positivity)]
  exact mul_le_mul_of_nonneg_left hqabs (by positivity)

end Stride

section PathSampler

/-!
## `interpolatePath` (lines 485–522)

`points[i].distanceTo(points[i+1])` is the Euclidean length of a
segment; it is taken from the distance oracle `d`.
-/

/-- The `dists` array (lines 490–495): per-segment lengths of a polyline. -/
def segDists (d : Vec3 → Vec3 → ℚ) : List Vec3 → List ℚ
  | p :: q :: rest => d p q :: segDists d (q :: rest)
  | _ => []

/-- The inner `for (j …)` walk of `interpolatePath` (lines 505–517): find the
segment containing the remaining target distance `t` and interpolate inside
it; `none` when the walk runs off the end (the `!added` case). -/
def walkSegs : List Vec3 → List ℚ → ℚ → Option Vec3
  | p :: q :: rest, seg :: segs, t =>
    if t ≤ seg then some (lerpV p q (t / seg))
    else walkSegs (q :: rest) segs (t - seg)
  | _, _, _ => none

/-- Translation of `interpolatePath(points, count)` (lines 485–522): resample a polyline to
`count` points evenly spaced by arc length.  Literal translation: fewer than
2 points or total length ≤ 0.1 return the input unchanged; otherwise the
output is the first point, `count - 2` interior samples at arc-length
positions `i * step`, and the last point. -/
def interpolatePath (d : Vec3 → Vec3 → ℚ) (points : List Vec3) (count : ℕ) :
    List Vec3 :=
  if points.length < 2 then points
  else
    let dists := segDists d points
    let totalLen := dists.sum
    if totalLen ≤ 1 / 10 then points
    else
      let step := totalLen / ((count : ℚ) - 1)
      let mids := (List.range' 1 (count - 2)).map fun (i : ℕ) =>
        match walkSegs points dists ((i : ℚ) * step) with
        | some pt => pt
        | none => points.getLastD 0
      points.headD 0 :: mids ++ [points.getLastD 0]

theorem interpolatePath_degenerate_short (d : Vec3 → Vec3 → ℚ)
    (points : List Vec3) (count : ℕ) (h : points.length < 2) :
    interpolatePath d points count = points := by
  simp [interpolatePath, h]

theorem interpolatePath_degenerate_len (d : Vec3 → Vec3 → ℚ)
    (points : List Vec3) (count : ℕ) (h : (segDists d points).sum ≤ 1 / 10) :
    interpolatePath d points count = points := by
  by_cases h1 : points.length < 2
  · simp [interpolatePath, h1]
  · simp only [interpolatePath, if_neg h1, if_pos h]

theorem interpolatePath_eval (d : Vec3 → Vec3 → ℚ) (points : List Vec3)
    (count : ℕ) (h2 : 2 ≤ points.length)
    (hL : 1 / 10 < (segDists d points).sum) :
    interpolatePath d points count =
      points.headD 0 ::
        ((List.range' 1 (count - 2)).map fun (i : ℕ) =>
          match walkSegs points (segDists d points)
              ((i : ℚ) * ((segDists d points).sum / ((count : ℚ) - 1))) with
          | some pt => pt
          | none => points.getLastD 0) ++ [points.getLastD 0] := by
  simp only [interpolatePath]
  rw [if_neg (by omega), if_neg (by exact not_le.mpr hL)]

theorem interpolatePath_length (d : Vec3 → Vec3 → ℚ) (points : List Vec3)
    (count : ℕ) (h2 : 2 ≤ points.length)
    (hL : 1 / 10 < (segDists d points).sum) (hc : 2 ≤ count) :
    (interpolatePath d points count).length = count := by
  rw [interpolatePath_eval d points count h2 hL]
  simp only [List.length_cons, List.length_append, List.length_map,
    List.length_range', List.length_nil]
  omega

theorem interpolatePath_head (d : Vec3 → Vec3 → ℚ) (points : List Vec3)
    (count : ℕ) (h2 : 2 ≤ points.length)
    (hL : 1 / 10 < (segDists d points).sum) :
    (interpolatePath d points count).headD 0 = points.headD 0 := by
  rw [interpolatePath_eval d points count h2 hL]
  rfl

theorem interpolatePath_last (d : Vec3 → Vec3 → ℚ) (points : List Vec3)
    (count : ℕ) (h2 : 2 ≤ points.length)
    (hL : 1 / 10 < (segDists d points).sum) :
    (interpolatePath d points count).getLastD 0 = points.getLastD 0 := by
  rw [interpolatePath_eval d points count h2 hL]
  rw [show points.headD 0 :: _ ++ [points.getLastD 0]
      = (points.headD 0 :: _) ++ [points.getLastD 0] from rfl]
  rw [List.getLastD_concat]

theorem Vec3.zero_def : (0 : Vec3) = ⟨0, 0, 0⟩ := rfl

theorem Vec3.zero_x : (0 : Vec3).x = 0 := rfl

theorem Vec3.zero_y : (0 : Vec3).y = 0 := rfl

theorem Vec3.zero_z : (0 : Vec3).z = 0 := rfl

theorem Vec3.add_def (a b : Vec3) : a + b = ⟨a.x + b.x, a.y + b.y, a.z + b.z⟩ := rfl

theorem Vec3.sub_def (a b : Vec3) : a - b = ⟨a.x - b.x, a.y - b.y, a.z - b.z⟩ := rfl

theorem Vec3.smul_def (c : ℚ) (a : Vec3) : c • a = ⟨c * a.x, c * a.y, c * a.z⟩ := rfl

theorem lerpV_zero (p q : Vec3) : lerpV p q 0 = p := by
  cases p
  cases q
  simp [lerpV, Vec3.add_def, Vec3.sub_def, Vec3.smul_def]

theorem lerpV_one (p q : Vec3) : lerpV p q 1 = q := by
  cases p
  cases q
  simp only [lerpV, Vec3.add_def, Vec3.sub_def, Vec3.smul_def, Vec3.mk.injEq]
  refine ⟨by ring, by ring, by ring⟩

theorem lerpV_sub_lerpV (p q : Vec3) (a b : ℚ) :
    lerpV p q b - lerpV p q a = (b - a) • (q - p) := by
  cases p
  cases q
  simp only [lerpV, Vec3.add_def, Vec3.sub_def, Vec3.smul_def, Vec3.mk.injEq]
  refine ⟨by ring, by ring, by ring⟩

/-- Closed form of `interpolatePath` on a straight two-point path of
positive reported length: the `i`-th interior sample interpolates at
parameter `i / (count - 1)`. -/
theorem interpolatePath_pair (d : Vec3 → Vec3 → ℚ) (p q : Vec3) (N : ℕ)
    (hL : 1 / 10 < d p q) (hN : 2 ≤ N) :
    interpolatePath d [p, q] N =
      p :: ((List.range' 1 (N - 2)).map fun (i : ℕ) =>
        lerpV p q ((i : ℚ) / ((N : ℚ) - 1))) ++ [q] := by
  have hsum : (segDists d [p, q]).sum = d p q := by
    simp [segDists]
  have hL0 : 0 < d p q := lt_trans (by norm_num) hL
  have hN1 : (0 : ℚ) < (N : ℚ) - 1 := by
    have : (2 : ℚ) ≤ (N : ℚ) := by exact_mod_cast hN
    linarith
  have hmids : ((List.range' 1 (N - 2)).map fun (i : ℕ) =>
        match walkSegs [p, q] (segDists d [p, q])
            ((i : ℚ) * (d p q / ((N : ℚ) - 1))) with
        | some pt => pt
        | none => [p, q].getLastD 0) =
      (List.range' 1 (N - 2)).map fun (i : ℕ) =>
        lerpV p q ((i : ℚ) / ((N : ℚ) - 1)) := by
    refine List.map_congr_left fun i hi => ?_
    obtain ⟨hi1, hi2⟩ := List.mem_range'_1.mp hi
    have hiN : (i : ℚ) ≤ (N : ℚ) - 1 := by
      have : i ≤ N - 1 := by omega
      have h' : (i : ℚ) ≤ ((N - 1 : ℕ) : ℚ) := by exact_mod_cast this
      have h'' : ((N - 1 : ℕ) : ℚ) = (N : ℚ) - 1 := by
        have : 1 ≤ N := by omega
        push_cast [this]
        ring
      rw [h''] at h'
      exact h'
    have ht : (i : ℚ) * (d p q / ((N : ℚ) - 1)) ≤ d p q := by
      rw [mul_div_assoc', div_le_iff₀ hN1]
      nlinarith
    rw [show segDists d [p, q] = [d p q] from rfl]
    rw [show walkSegs [p, q] [d p q] ((i : ℚ) * (d p q / ((N : ℚ) - 1)))
        = some (lerpV p q (((i : ℚ) * (d p q / ((N : ℚ) - 1))) / d p q)) by
      simp [walkSegs, ht]]
    have halpha : ((i : ℚ) * (d p q / ((N : ℚ) - 1))) / d p q
        = (i : ℚ) / ((N : ℚ) - 1) := by
      field_simp
      ring
    show lerpV p q (((i : ℚ) * (d p q / ((N : ℚ) - 1))) / d p q)
        = lerpV p q ((i : ℚ) / ((N : ℚ) - 1))
    rw [halpha]
  rw [interpolatePath_eval d [p, q] N (by simp) (by rw [hsum]; exact hL), hsum,
    hmids]
  rfl

theorem interpolatePath_pair_getD (d : Vec3 → Vec3 → ℚ) (p q : Vec3) (N : ℕ)
    (hL : 1 / 10 < d p q) (hN : 2 ≤ N) (j : ℕ) (hj : j < N) :
    (interpolatePath d [p, q] N).getD j 0 =
      lerpV p q ((j : ℚ) / ((N : ℚ) - 1)) := by
  have hN1 : ((N : ℚ) - 1) ≠ 0 := by
    have : (2 : ℚ) ≤ (N : ℚ) := by exact_mod_cast hN
    intro hcon
    linarith
  rw [interpolatePath_pair d p q N hL hN, List.cons_append]
  rcases j with - | j
  · simp [lerpV_zero]
  · rw [List.getD_cons_succ]
    rcases Nat.lt_or_ge j (N - 2) with hj2 | hj2
    · have hmaplen : j < ((List.range' 1 (N - 2)).map fun (i : ℕ) =>
          lerpV p q ((i : ℚ) / ((N : ℚ) - 1))).length := by
        simpa using hj2
      rw [List.getD_append _ _ _ _ hmaplen, List.getD_eq_getElem _ _ hmaplen]
      rw [List.getElem_map]
      rw [List.getElem_range'_1]
      norm_num [Nat.add_comm]
    · have hjeq : j = N - 2 := by omega
      have hmaplen : ((List.range' 1 (N - 2)).map fun (i : ℕ) =>
          lerpV p q ((i : ℚ) / ((N : ℚ) - 1))).length ≤ j := by
        simp [hjeq]
      rw [List.getD_append_right _ _ _ _ hmaplen]
      have : j - ((List.range' 1 (N - 2)).map fun (i : ℕ) =>
          lerpV p q ((i : ℚ) / ((N : ℚ) - 1))).length = 0 := by
        simp [hjeq]
      rw [this, List.getD_cons_zero]
      have hcast : ((j : ℚ) + 1) / ((N : ℚ) - 1) = 1 := by
        have hje : ((j : ℚ) + 1) = (N : ℚ) - 1 := by
          have : (j + 1 : ℕ) = N - 1 := by omega
          have h2 : ((j + 1 : ℕ) : ℚ) = ((N - 1 : ℕ) : ℚ) := by exact_mod_cast this
          push_cast at h2
          have h3 : ((N - 1 : ℕ) : ℚ) = (N : ℚ) - 1 := by
            have : 1 ≤ N := by omega
            push_cast [this]
            ring
          rw [h3] at h2
          exact h2
        rw [hje, div_self hN1]
      push_cast
      rw [hcast, lerpV_one]

/-- Consecutive outputs on a straight two-point input differ by the fixed
vector `(q - p) / (N - 1)`; in the Euclidean metric their spacing is
therefore exactly `L / (N - 1)`. -/
theorem interpolatePath_pair_spacing (d : Vec3 → Vec3 → ℚ) (p q : Vec3)
    (N : ℕ) (hL : 1 / 10 < d p q) (hN : 2 ≤ N) (j : ℕ) (hj : j + 1 < N) :
    (interpolatePath d [p, q] N).getD (j + 1) 0 -
        (interpolatePath d [p, q] N).getD j 0 =
      (1 / ((N : ℚ) - 1)) • (q - p) := by
  have hN1 : ((N : ℚ) - 1) ≠ 0 := by
    have : (2 : ℚ) ≤ (N : ℚ) := by exact_mod_cast hN
    intro hcon
    linarith
  rw [interpolatePath_pair_getD d p q N hL hN (j + 1) hj,
    interpolatePath_pair_getD d p q N hL hN j (by omega), lerpV_sub_lerpV]
  congr 1
  push_cast
  field_simp

end PathSampler

section DataModel

/-!
## Data model: drones, squad commands, enemies, missiles

Drones live in parallel arrays `droneState/droneTargetId/droneCommandId/
droneLoad/droneHP/dronePos` (`init`, lines 177–182); the first `droneCount`
slots are the live population, modelled as a `List DroneRec` whose indices
are the slot numbers.
-/

/-- Drone states (lines 19–21): `STATE_MINING_SEEK`, `STATE_RETURNING`,
`STATE_ATTACKING`. -/
inductive DState
  | seeking
  | returning
  | attacking
deriving DecidableEq, Repr

/-- One slot of the parallel drone arrays. -/
structure DroneRec where
  state : DState
  targetId : ℤ
  commandId : ℤ
  load : ℚ
  hp : ℚ
  pos : Vec3
deriving DecidableEq, Repr

/-- The array fill values of `init` (lines 177–182): state seeking,
targetId and commandId `-1`, load `0`, hp `1`. -/
def dfltDrone : DroneRec :=
  { state := DState.seeking, targetId := -1, commandId := -1, load := 0,
    hp := 1, pos := 0 }

/-- The `state.attackMode` values: `'SWARM'` or `'WALL'`. -/
inductive SquadType
  | swarm
  | wall
deriving DecidableEq, Repr

/-- The command record pushed by `createSquadFromPending` (lines 565–575).
The code stores `radius = Math.sqrt(maxD)` and only ever uses
`radius * radius`; we store the squared value `maxD` directly. -/
structure SquadCommand where
  id : ℤ
  type : SquadType
  path : List Vec3
  spreadPoints : List Vec3
  center : Vec3
  radiusSq : ℚ
  activeDroneCount : ℤ
deriving DecidableEq, Repr

/-- Enemy `userData` fields relevant to melee damage (line 798). -/
structure Enemy where
  pos : Vec3
  hp : ℚ
  shield : ℚ
deriving DecidableEq, Repr

/-- A missile (line 816): position, velocity, damage. -/
structure Missile where
  pos : Vec3
  vel : Vec3
  damage : ℚ
deriving DecidableEq, Repr

/-- Mothership state touched by `updateMissiles` (lines 1092–1099). -/
structure ShipState where
  shieldCurrent : ℚ
  hullIntegrity : ℚ
  gameOver : Bool
deriving DecidableEq, Repr

end DataModel

section SquadCreation

/-!
## `createSquadFromPending` (lines 524–609)
-/

/-- The first `avail` scan (lines 527–530): indices of drones in
`STATE_MINING_SEEK` or `STATE_RETURNING`. -/
def seekRetIndices (drones : List DroneRec) : List ℕ :=
  (List.range drones.length).filter fun i =>
    (drones.getD i dfltDrone).state = DState.seeking ∨
      (drones.getD i dfltDrone).state = DState.returning

/-- Indices of drones in `STATE_ATTACKING`, in slot order. -/
def attackingIndices (drones : List DroneRec) : List ℕ :=
  (List.range drones.length).filter fun i =>
    (drones.getD i dfltDrone).state = DState.attacking

/-- The count `needed = Math.max(1, Math.floor(droneCount * deploymentRatio))`
(line 532). -/
def neededCount (droneCount : ℕ) (deploymentRatio : ℚ) : ℕ :=
  max 1 (Int.toNat ⌊(droneCount : ℚ) * deploymentRatio⌋)

/-- The `avail` pool after the Wall re-tasking extension (lines 534–539):
when the seek/return pool is empty and the mode is Wall, attacking drones
are pushed in slot order, stopping once `needed` are collected. -/
def availIndices (drones : List DroneRec) (mode : SquadType) (needed : ℕ) :
    List ℕ :=
  let avail := seekRetIndices drones
  if avail = [] ∧ mode = SquadType.wall then (attackingIndices drones).take needed
  else avail

/-- The eligible pool as described in the design document: seek/return
drones, extended to all attacking drones for Wall when otherwise empty. -/
def eligiblePool (drones : List DroneRec) (mode : SquadType) : List ℕ :=
  if seekRetIndices drones = [] ∧ mode = SquadType.wall then
    attackingIndices drones
  else seekRetIndices drones

/-- The `targetRef` distribution (lines 589–599): for Wall with more than one
assigned drone, `Math.floor(assignedIndex / (totalAssigned - 1) *
(spreadPoints.length - 1))`; otherwise `0`. -/
def assignedTarget (mode : SquadType) (assignedIndex totalAssigned m : ℕ) : ℤ :=
  if mode = SquadType.wall ∧ 1 < totalAssigned then
    ⌊(assignedIndex : ℚ) / ((totalAssigned : ℚ) - 1) * ((m : ℚ) - 1)⌋
  else 0

/-- The `center` computation (lines 557–559): mean of the path points. -/
def pathCenter (path : List Vec3) : Vec3 :=
  (1 / (path.length : ℚ)) • path.sum

/-- The `maxD` computation (lines 560–561): max squared distance from the center. -/
def maxDistSq (c : Vec3) (path : List Vec3) : ℚ :=
  (path.map fun p => distSq c p).foldl max 0

/-- Result of a path submission: the updated drone store, the command
pushed to the registry (if any), and whether the `"NO IDLE DRONES"`
notice was emitted. -/
structure CreateResult where
  drones : List DroneRec
  newCommand : Option SquadCommand
  noIdleNotice : Bool
deriving DecidableEq, Repr

/-- The assignment loop (lines 583–602): each drone of `toAssign` becomes
Attacking with the new command id, hp `wallHP` for Wall (else 1), and the
Wall slot determined by its position in the (duplicate-free) assignment
list — the loop's `assignedIndex` counter equals `toAssign.indexOf i`.
`m` is `spreadPoints.length`. -/
def assignDrones (mode : SquadType) (wallHP : ℚ) (id : ℤ) (toAssign : List ℕ)
    (m : ℕ) (drones : List DroneRec) : List DroneRec :=
  (List.range drones.length).map fun i =>
    let old := drones.getD i dfltDrone
    if i ∈ toAssign then
      { old with
        state := DState.attacking
        commandId := id
        hp := if mode = SquadType.wall then wallHP else 1
        targetId := assignedTarget mode (toAssign.indexOf i) toAssign.length m }
    else old

/-- Translation of `createSquadFromPending` (lines 524–609).  `id` is the fresh
`++this.nextCommandId` value. -/
def createSquadFromPending (d : Vec3 → Vec3 → ℚ) (pendingPath : List Vec3)
    (mode : SquadType) (deploymentRatio wallHP : ℚ) (id : ℤ)
    (drones : List DroneRec) : CreateResult :=
  if pendingPath.length < 2 then ⟨drones, none, false⟩
  else
    let needed := neededCount drones.length deploymentRatio
    let avail := availIndices drones mode needed
    if avail = [] then ⟨drones, none, true⟩
    else
      let center := pathCenter pendingPath
      let spreadPoints := interpolatePath d pendingPath 1000
      let dronesToAssign := avail.take needed
      let cmd : SquadCommand :=
        { id := id, type := mode, path := pendingPath,
          spreadPoints := spreadPoints, center := center,
          radiusSq := maxDistSq center pendingPath,
          activeDroneCount := dronesToAssign.length }
      ⟨assignDrones mode wallHP id dronesToAssign spreadPoints.length drones,
        some cmd, false⟩

/-- Translation of `removeSquad` (lines 635–653): drop the command from the registry and
reset every member to seeking with cleared references.  No-op when the id
is not registered. -/
def removeSquad (id : ℤ) (drones : List DroneRec)
    (commands : List SquadCommand) : List DroneRec × List SquadCommand :=
  if (commands.find? fun c => c.id = id).isSome then
    (drones.map fun r =>
        if r.commandId = id then
          { r with state := DState.seeking, commandId := -1, targetId := -1 }
        else r,
      commands.filter fun c => c.id ≠ id)
  else (drones, commands)

/-- Translation of `removeDrone` (lines 1412–1436): swap-with-last compaction.  The
`droneCount--` is the list truncation to `length - 1`. -/
def removeDrone (drones : List DroneRec) (i : ℕ) : List DroneRec :=
  let last := drones.length - 1
  if i ≠ last then (drones.set i (drones.getD last dfltDrone)).take last
  else drones.take last

end SquadCreation

section DroneUpdate

/-!
## `updateSingleDrone` (lines 1213–1359)

The per-drone state machine.  Mutated state (drone arrays, command
registry, enemy list, resources) is bundled into `SimState`; per-call
inputs (movement budget, stride factor, asteroid positions, the
`Math.sin/cos` jitter values and the `Math.random()` crit sample) into
`UpdateCtx`.
-/

/-- The engine state a single drone update can read and write. -/
structure SimState where
  drones : List DroneRec
  commands : List SquadCommand
  enemies : List Enemy
  resources : ℚ
deriving DecidableEq, Repr

/-- Per-call inputs of `updateSingleDrone i move stride`: `d` is the
Euclidean distance oracle, `jitterX/jitterZ` the values of
`Math.sin(gameTime + i) * 20` and `Math.cos(gameTime + i) * 20`, and
`critSample` the `Math.random()` draw of the critical roll. -/
structure UpdateCtx where
  d : Vec3 → Vec3 → ℚ
  move : ℚ
  stride : ℚ
  dt : ℚ
  asteroids : List Vec3
  jitterX : ℚ
  jitterZ : ℚ
  critSample : ℚ
  damageMultiplier : ℚ
  critChance : ℚ
  miningSpeed : ℚ
  cargoCapacity : ℚ

/-- Melee damage roll (lines 1268–1271): base `2 * damageMultiplier`,
tripled when the crit sample is below `critChance`, then scaled by the
stride factor. -/
def meleeDamage (damageMultiplier critChance critSample stride : ℚ) : ℚ :=
  let dmg := 2 * damageMultiplier
  let dmg := if critSample < critChance then dmg * 3 else dmg
  dmg * stride

/-- The approach-angle test (lines 1277–1281): the code compares
`dot(normalize(0 - e), normalize(pos - e)) > -0.2`.  With
`a = dot(0 - e, pos - e)` this real-arithmetic condition is exactly
`0 ≤ a ∨ a² < (1/25) * ‖0-e‖² * ‖pos-e‖²`, which is rational. -/
def notFromBehind (pos epos : Vec3) : Bool :=
  let u := (0 : Vec3) - epos
  let v := pos - epos
  let a := dot3 u v
  decide (0 ≤ a) || decide (a * a < 1 / 25 * (normSq u * normSq v))

/-- Damage application to the front enemy (lines 1281–1295): shield route
with overflow carry into hp when the hit is not from directly behind and
the shield is up; otherwise direct hp damage plus an extra 50% when a
shield is up. -/
def applyMelee (pos : Vec3) (dmg : ℚ) (e : Enemy) : Enemy :=
  if notFromBehind pos e.pos ∧ 0 < e.shield then
    let s := e.shield - dmg
    if s < 0 then { e with hp := e.hp + s, shield := 0 }
    else { e with shield := s }
  else
    let hp := e.hp - dmg
    { e with hp := if 0 < e.shield then hp - dmg * (1 / 2) else hp }

/-- The Swarm melee block (lines 1265–1296): if any enemy exists and the
drone's (post-move) position is within squared distance 2500 of
`enemies[0]`, apply one damage roll to that enemy. -/
def meleeCheck (ctx : UpdateCtx) (i : ℕ) (r : DroneRec) (st : SimState) :
    SimState :=
  let base := { st with drones := st.drones.set i r }
  match st.enemies with
  | [] => base
  | e :: rest =>
    if distSq r.pos e.pos < 2500 then
      let dmg := meleeDamage ctx.damageMultiplier ctx.critChance
        ctx.critSample ctx.stride
      { base with enemies := applyMelee r.pos dmg e :: rest }
    else base

/-- The `STATE_ATTACKING` branch (lines 1218–1298).  The dangling-command
soft failure (lines 1222–1225) sets the state back to seeking and returns
early — the stored `commandId` is left as it was.  In the Swarm detach
path (lines 1252–1258) the early `return` also skips the position
write-back, so the drone's position is not snapped to the final
waypoint. -/
def updateAttacking (ctx : UpdateCtx) (i : ℕ) (r : DroneRec) (st : SimState) :
    SimState :=
  match st.commands.find? fun c => c.id = r.commandId with
  | none => { st with drones := st.drones.set i { r with state := DState.seeking } }
  | some cmd =>
    match cmd.type with
    | SquadType.wall =>
      let pts := cmd.spreadPoints
      let tIdx : ℤ :=
        if (pts.length : ℤ) ≤ r.targetId then r.targetId % (pts.length : ℤ)
        else r.targetId
      let target := pts.getD tIdx.toNat 0
      let pos :=
        if 1 < ctx.d r.pos target then moveToward ctx.d r.pos target ctx.move
        else r.pos
      { st with drones := st.drones.set i { r with pos := pos } }
    | SquadType.swarm =>
      let pts := cmd.path
      let tIdx : ℤ := if (pts.length : ℤ) ≤ r.targetId then 0 else r.targetId
      let target := pts.getD tIdx.toNat 0
      if ctx.d r.pos target < ctx.move then
        if tIdx < (pts.length : ℤ) - 1 then
          meleeCheck ctx i { r with pos := target, targetId := r.targetId + 1 } st
        else
          let drones := st.drones.set i
            { r with state := DState.seeking, commandId := -1, targetId := -1 }
          let newCount := cmd.activeDroneCount - 1
          let commands := st.commands.map fun c =>
            if c.id = cmd.id then { c with activeDroneCount := newCount } else c
          if newCount ≤ 0 then
            let dc := removeSquad cmd.id drones commands
            { st with drones := dc.1, commands := dc.2 }
          else { st with drones := drones, commands := commands }
      else
        meleeCheck ctx i { r with pos := moveToward ctx.d r.pos target ctx.move } st

/-- The `STATE_MINING_SEEK` branch (lines 1299–1328): round-robin asteroid
reassignment, time-jittered steering target, proximity mining with cargo
accumulation, transition to `STATE_RETURNING` at capacity. -/
def updateSeeking (ctx : UpdateCtx) (i : ℕ) (r : DroneRec) (st : SimState) :
    SimState :=
  let acount := ctx.asteroids.length
  let tId : ℤ :=
    if ¬(0 ≤ r.targetId ∧ r.targetId < (acount : ℤ)) ∧ 0 < acount then
      ((i % acount : ℕ) : ℤ)
    else r.targetId
  let valid := 0 ≤ tId ∧ tId < (acount : ℤ)
  let astPos := ctx.asteroids.getD tId.toNat 0
  let target : Vec3 :=
    if valid then ⟨astPos.x + ctx.jitterX, astPos.y, astPos.z + ctx.jitterZ⟩
    else ⟨0, 30, 0⟩
  let mined := valid ∧ distSq r.pos astPos < 3000
  let load :=
    if mined then r.load + ctx.dt * ctx.stride * 10 * ctx.miningSpeed else r.load
  let state :=
    if mined ∧ ctx.cargoCapacity ≤ load then DState.returning else DState.seeking
  let pos := moveToward ctx.d r.pos target ctx.move
  let r2 := { r with targetId := tId, load := load, state := state, pos := pos }
  { st with drones := st.drones.set i r2 }

/-- The `STATE_RETURNING` branch (lines 1329–1345): steer to `(0,10,0)`;
within distance 10, deposit `⌊load⌋` into the resource pool and revert to
seeking with the target cleared. -/
def updateReturning (ctx : UpdateCtx) (i : ℕ) (r : DroneRec) (st : SimState) :
    SimState :=
  let target : Vec3 := ⟨0, 10, 0⟩
  if ctx.d r.pos target < 10 then
    let r2 := { r with load := 0, state := DState.seeking, targetId := (-1 : ℤ) }
    { st with
      drones := st.drones.set i r2,
      resources := st.resources + (⌊r.load⌋ : ℤ) }
  else
    let r2 := { r with pos := moveToward ctx.d r.pos target ctx.move }
    { st with drones := st.drones.set i r2 }

/-- Translation of `updateSingleDrone` (lines 1213–1359): dispatch on the drone state. -/
def updateSingleDrone (ctx : UpdateCtx) (i : ℕ) (st : SimState) : SimState :=
  let r := st.drones.getD i dfltDrone
  match r.state with
  | DState.attacking => updateAttacking ctx i r st
  | DState.seeking => updateSeeking ctx i r st
  | DState.returning => updateReturning ctx i r st

end DroneUpdate

section Missiles

/-!
## `updateMissiles` (lines 1052–1104) and shield regeneration (942–944)
-/

/-- Translation of `distToSegSq` (lines 627–633): squared distance from `p` to the
segment `v w`, with the projection parameter computed in the xz-plane and
the projected point taken at `y = 0`, exactly as in the code. -/
def distToSegSq (p v w : Vec3) : ℚ :=
  let l2 := distSq v w
  if l2 = 0 then distSq p v
  else
    let t := ((p.x - v.x) * (w.x - v.x) + (p.z - v.z) * (w.z - v.z)) / l2
    let t2 := max 0 (min 1 t)
    distSq p ⟨v.x + t2 * (w.x - v.x), 0, v.z + t2 * (w.z - v.z)⟩

/-- The narrow-phase segment loop (lines 1065–1071). -/
def segsHit (pos : Vec3) : List Vec3 → Bool
  | v :: w :: rest => decide (distToSegSq pos v w < 100) || segsHit pos (w :: rest)
  | _ => false

/-- One command's hit test (lines 1063–1072): Wall type, broad-phase
`distSq(center) < radius² + 3000`, then the segment loop. -/
def missileHitsCmd (pos : Vec3) (c : SquadCommand) : Bool :=
  decide (c.type = SquadType.wall) &&
    (decide (distSq pos c.center < c.radiusSq + 3000) && segsHit pos c.path)

/-- One missile's step of `updateMissiles` (lines 1056–1103): advance by
`velocity * dt`; a Wall hit destroys the missile and queues its damage
against the first hit command's id; otherwise within squared distance 900
of the origin the mothership absorbs it (shield at 2× conversion when up,
else hull, with hull ≤ 0 fatal); beyond squared distance 2 000 000 it is
discarded. -/
def missileStep (dt : ℚ) (commands : List SquadCommand) (ship : ShipState)
    (m : Missile) : Option Missile × Option (ℤ × ℚ) × ShipState :=
  let pos := m.pos + dt • m.vel
  match commands.find? (missileHitsCmd pos) with
  | some c => (none, some (c.id, m.damage), ship)
  | none =>
    if normSq pos < 900 then
      if 0 < ship.shieldCurrent then
        (none, none,
          { ship with shieldCurrent := ship.shieldCurrent - m.damage * 2 })
      else
        let hull := ship.hullIntegrity - m.damage
        (none, none,
          { ship with
            hullIntegrity := hull,
            gameOver := ship.gameOver || decide (hull ≤ 0) })
    else if 2000000 < normSq pos then (none, none, ship)
    else (some { m with pos := pos }, none, ship)

/-- Shield regeneration in `animate` (lines 942–944):
`shieldCurrent = min(shieldMax, shieldCurrent + shieldRegen * dt * 20)`
whenever the shield is below max and the regen stat is positive. -/
def shieldRegenStep (dt shieldMax shieldRegen shieldCurrent : ℚ) : ℚ :=
  if shieldCurrent < shieldMax ∧ 0 < shieldRegen then
    min shieldMax (shieldCurrent + shieldRegen * dt * 20)
  else shieldCurrent

end Missiles

section RemoveDroneLemmas

/-!
## Swap-with-last removal (`removeDrone`, claim C8)
-/

theorem removeDrone_length (drones : List DroneRec) (i : ℕ)
    (h : i < drones.length) :
    (removeDrone drones i).length = drones.length - 1 := by
  simp only [removeDrone]
  split_ifs <;> simp [List.length_take]

theorem removeDrone_getD_other (drones : List DroneRec) (i j : ℕ)
    (hj : j < drones.length - 1) (hij : j ≠ i) :
    (removeDrone drones i).getD j dfltDrone = drones.getD j dfltDrone := by
  have hjl : j < drones.length := by omega
  simp only [removeDrone]
  split_ifs with h
  · rw [List.set_take]
    have h1 : j < ((drones.take (drones.length - 1)).set i
        (drones.getD (drones.length - 1) dfltDrone)).length := by
      simp [List.length_take]
      omega
    rw [List.getD_eq_getElem _ _ h1, List.getD_eq_getElem _ _ hjl,
      List.getElem_set_ne (Ne.symm hij)]
    simp only [List.getElem_take]
  · have h1 : j < (drones.take (drones.length - 1)).length := by
      simp [List.length_take]
      omega
    rw [List.getD_eq_getElem _ _ h1, List.getD_eq_getElem _ _ hjl]
    simp only [List.getElem_take]

theorem removeDrone_getD_self (drones : List DroneRec) (i : ℕ)
    (hi : i < drones.length - 1) :
    (removeDrone drones i).getD i dfltDrone =
      drones.getD (drones.length - 1) dfltDrone := by
  simp only [removeDrone]
  rw [if_pos (by omega), List.set_take]
  have h1 : i < ((drones.take (drones.length - 1)).set i
      (drones.getD (drones.length - 1) dfltDrone)).length := by
    simp [List.length_take]
    omega
  rw [List.getD_eq_getElem _ _ h1, List.getElem_set_self]

theorem removeDrone_perm (drones : List DroneRec) (i : ℕ)
    (hi : i < drones.length) :
    (removeDrone drones i).Perm (drones.eraseIdx i) := by
  rcases Nat.lt_or_ge i (drones.length - 1) with hlt | hge
  · have hne : drones ≠ [] := by
      intro hcon
      rw [hcon] at hi
      simp at hi
    have hz : drones.getD (drones.length - 1) dfltDrone = drones.getLast hne := by
      rw [List.getLast_eq_getElem, List.getD_eq_getElem _ _ (by omega)]
    have hdecomp : drones = drones.take (drones.length - 1) ++
        [drones.getD (drones.length - 1) dfltDrone] := by
      conv_lhs => rw [← List.dropLast_append_getLast hne]
      rw [List.dropLast_eq_take, hz]
    have hrd : removeDrone drones i = (drones.take (drones.length - 1)).set i
        (drones.getD (drones.length - 1) dfltDrone) := by
      simp only [removeDrone]
      rw [if_pos (by omega), List.set_take]
    have hA : i < (drones.take (drones.length - 1)).length := by
      simp [List.length_take]
      omega
    rw [hrd]
    conv_rhs => rw [hdecomp]
    rw [List.eraseIdx_append_of_lt_length hA,
      List.set_eq_take_cons_drop _ hA, List.eraseIdx_eq_take_drop_succ,
      List.append_assoc]
    exact List.Perm.append_left _ (List.perm_append_singleton _ _).symm
  · have hieq : i = drones.length - 1 := by omega
    simp only [removeDrone]
    rw [if_neg (by omega)]
    rw [hieq, List.eraseIdx_eq_take_drop_succ,
      List.drop_eq_nil_of_le (by omega), List.append_nil]

end RemoveDroneLemmas

section SquadAssignLemmas

/-!
## Squad creation lemmas (claims C3, C4)
-/

theorem seekRetIndices_nodup (drones : List DroneRec) :
    (seekRetIndices drones).Nodup :=
  (List.nodup_range _).filter _

theorem attackingIndices_nodup (drones : List DroneRec) :
    (attackingIndices drones).Nodup :=
  (List.nodup_range _).filter _

theorem mem_seekRetIndices_lt (drones : List DroneRec) (i : ℕ)
    (h : i ∈ seekRetIndices drones) : i < drones.length := by
  have := (List.mem_filter.mp h).1
  exact List.mem_range.mp this

theorem mem_attackingIndices_lt (drones : List DroneRec) (i : ℕ)
    (h : i ∈ attackingIndices drones) : i < drones.length := by
  have := (List.mem_filter.mp h).1
  exact List.mem_range.mp this

theorem availIndices_nodup (drones : List DroneRec) (mode : SquadType)
    (needed : ℕ) : (availIndices drones mode needed).Nodup := by
  simp only [availIndices]
  split_ifs
  · exact (List.take_sublist _ _).nodup (attackingIndices_nodup drones)
  · exact seekRetIndices_nodup drones

theorem mem_availIndices_lt (drones : List DroneRec) (mode : SquadType)
    (needed : ℕ) (i : ℕ) (h : i ∈ availIndices drones mode needed) :
    i < drones.length := by
  simp only [availIndices] at h
  split_ifs at h
  · exact mem_attackingIndices_lt drones i (List.mem_of_mem_take h)
  · exact mem_seekRetIndices_lt drones i h

/-- The bound `1 ≤ needed` always holds (line 532's `Math.max(1, …)`). -/
theorem neededCount_pos (droneCount : ℕ) (ratio : ℚ) :
    1 ≤ neededCount droneCount ratio :=
  le_max_left _ _

/-- The code's `avail` pool is empty exactly when the spec's eligible pool
is empty. -/
theorem availIndices_eq_nil_iff (drones : List DroneRec) (mode : SquadType)
    (needed : ℕ) (hn : 1 ≤ needed) :
    availIndices drones mode needed = [] ↔ eligiblePool drones mode = [] := by
  simp only [availIndices, eligiblePool]
  split_ifs with h
  · rw [List.take_eq_nil_iff]
    constructor
    · rintro (h0 | h0)
      · omega
      · exact h0
    · intro h0
      exact Or.inr h0
  · exact Iff.rfl

/-- Number of drones the assignment loop touches: the minimum of `needed`
and the eligible pool size. -/
theorem assign_count_eq (drones : List DroneRec) (mode : SquadType)
    (needed : ℕ) (hn : 1 ≤ needed) :
    ((availIndices drones mode needed).take needed).length =
      min needed (eligiblePool drones mode).length := by
  simp only [availIndices, eligiblePool]
  split_ifs with h
  · rw [List.take_take, min_self, List.length_take]
  · rw [List.length_take]

theorem assignDrones_length (mode : SquadType) (wallHP : ℚ) (id : ℤ)
    (toAssign : List ℕ) (m : ℕ) (drones : List DroneRec) :
    (assignDrones mode wallHP id toAssign m drones).length = drones.length := by
  simp [assignDrones]

theorem assignDrones_getD (mode : SquadType) (wallHP : ℚ) (id : ℤ)
    (toAssign : List ℕ) (m : ℕ) (drones : List DroneRec) (i : ℕ)
    (hi : i < drones.length) :
    (assignDrones mode wallHP id toAssign m drones).getD i dfltDrone =
      (if i ∈ toAssign then
        { drones.getD i dfltDrone with
          state := DState.attacking
          commandId := id
          hp := if mode = SquadType.wall then wallHP else 1
          targetId := assignedTarget mode (toAssign.indexOf i) toAssign.length m }
      else drones.getD i dfltDrone) := by
  have hlen : i < ((List.range drones.length).map fun j =>
      let old := drones.getD j dfltDrone
      if j ∈ toAssign then
        { old with
          state := DState.attacking
          commandId := id
          hp := if mode = SquadType.wall then wallHP else 1
          targetId := assignedTarget mode (toAssign.indexOf j) toAssign.length m }
      else old).length := by
    simpa using hi
  rw [assignDrones, List.getD_eq_getElem _ _ hlen, List.getElem_map]
  simp

/-- Exactly the drones of `toAssign` end up Attacking with the new
command id, provided no pre-existing drone already carries that id. -/
theorem assignDrones_count (mode : SquadType) (wallHP : ℚ) (id : ℤ)
    (toAssign : List ℕ) (m : ℕ) (drones : List DroneRec)
    (hfresh : ∀ r ∈ drones, r.commandId ≠ id)
    (hsub : ∀ j ∈ toAssign, j < drones.length) (hnd : toAssign.Nodup) :
    ((assignDrones mode wallHP id toAssign m drones).filter fun r =>
        decide (r.state = DState.attacking) && decide (r.commandId = id)).length
      = toAssign.length := by
  rw [← List.countP_eq_length_filter, assignDrones, List.countP_map]
  have hstep : List.countP ((fun r =>
      decide (r.state = DState.attacking) && decide (r.commandId = id)) ∘ fun i =>
        let old := drones.getD i dfltDrone
        if i ∈ toAssign then
          { old with
            state := DState.attacking
            commandId := id
            hp := if mode = SquadType.wall then wallHP else 1
            targetId := assignedTarget mode (toAssign.indexOf i) toAssign.length m }
        else old) (List.range drones.length)
      = List.countP (fun i => decide (i ∈ toAssign)) (List.range drones.length) := by
    refine List.countP_congr fun i hi => ?_
    have hil : i < drones.length := List.mem_range.mp hi
    simp only [Function.comp]
    by_cases hmem : i ∈ toAssign
    · simp [hmem]
    · have hmm : (drones.getD i dfltDrone).commandId ≠ id := by
        refine hfresh _ ?_
        have hge := List.getD_eq_getElem drones dfltDrone hil
        rw [hge]
        exact List.getElem_mem _
      simp only [List.getD_eq_getElem?_getD] at hmm
      simp [hmem]
      intro _
      exact hmm
  rw [hstep, List.countP_eq_length_filter]
  have hperm : List.Perm
      ((List.range drones.length).filter fun i => decide (i ∈ toAssign))
      toAssign := by
    refine (List.perm_ext_iff_of_nodup ((List.nodup_range _).filter _) hnd).mpr
      fun a => ?_
    simp only [List.mem_filter, List.mem_range, decide_eq_true_eq]
    exact ⟨fun h => h.2, fun h => ⟨hsub a h, h⟩⟩
  exact hperm.length_eq

/-- Evaluation of `createSquadFromPending` in the successful case. -/
theorem createSquad_eval (d : Vec3 → Vec3 → ℚ) (path : List Vec3)
    (mode : SquadType) (ratio wallHP : ℚ) (id : ℤ) (drones : List DroneRec)
    (hpath : 2 ≤ path.length)
    (hav : availIndices drones mode (neededCount drones.length ratio) ≠ []) :
    createSquadFromPending d path mode ratio wallHP id drones =
      ⟨assignDrones mode wallHP id
          ((availIndices drones mode (neededCount drones.length ratio)).take
            (neededCount drones.length ratio))
          (interpolatePath d path 1000).length drones,
        some
          { id := id, type := mode, path := path,
            spreadPoints := interpolatePath d path 1000,
            center := pathCenter path,
            radiusSq := maxDistSq (pathCenter path) path,
            activeDroneCount :=
              ((availIndices drones mode (neededCount drones.length ratio)).take
                (neededCount drones.length ratio)).length },
        false⟩ := by
  simp only [createSquadFromPending]
  rw [if_neg (by omega), if_neg hav]

/-- Evaluation of `createSquadFromPending` in the rejected case. -/
theorem createSquad_reject (d : Vec3 → Vec3 → ℚ) (path : List Vec3)
    (mode : SquadType) (ratio wallHP : ℚ) (id : ℤ) (drones : List DroneRec)
    (hpath : 2 ≤ path.length)
    (hav : availIndices drones mode (neededCount drones.length ratio) = []) :
    createSquadFromPending d path mode ratio wallHP id drones =
      ⟨drones, none, true⟩ := by
  simp only [createSquadFromPending]
  rw [if_neg (by omega), if_pos hav]

end SquadAssignLemmas

section Invariant

/-!
## The commandId back-reference invariant (claim C5)
-/

/-- Per-drone invariant: `commandId ≥ 0` iff the drone is Attacking, and a
non-negative `commandId` names a command present in the registry. -/
def DroneInv (commands : List SquadCommand) (r : DroneRec) : Prop :=
  (0 ≤ r.commandId ↔ r.state = DState.attacking) ∧
    (0 ≤ r.commandId → ∃ c ∈ commands, c.id = r.commandId)

instance (commands : List SquadCommand) (r : DroneRec) :
    Decidable (DroneInv commands r) := by
  unfold DroneInv
  infer_instance

/-- Store-wide invariant. -/
def StoreInv (drones : List DroneRec) (commands : List SquadCommand) : Prop :=
  ∀ r ∈ drones, DroneInv commands r

instance (drones : List DroneRec) (commands : List SquadCommand) :
    Decidable (StoreInv drones commands) := by
  unfold StoreInv
  infer_instance

theorem StoreInv_set (drones : List DroneRec) (commands : List SquadCommand)
    (i : ℕ) (r' : DroneRec) (hinv : StoreInv drones commands)
    (hr' : DroneInv commands r') : StoreInv (drones.set i r') commands := by
  intro r hmem
  rcases List.mem_or_eq_of_mem_set hmem with h1 | h1
  · exact hinv r h1
  · rw [h1]
    exact hr'

/-- A reset drone record satisfies the invariant against any registry. -/
theorem DroneInv_reset (commands : List SquadCommand) (r : DroneRec) :
    DroneInv commands
      { r with state := DState.seeking, commandId := -1, targetId := -1 } := by
  constructor
  · simp
  · intro h
    simp at h

theorem createSquad_inv (d : Vec3 → Vec3 → ℚ) (path : List Vec3)
    (mode : SquadType) (ratio wallHP : ℚ) (id : ℤ) (drones : List DroneRec)
    (commands : List SquadCommand) (hid : 0 ≤ id)
    (hinv : StoreInv drones commands) :
    StoreInv (createSquadFromPending d path mode ratio wallHP id drones).drones
      (commands ++
        (createSquadFromPending d path mode ratio wallHP id drones).newCommand.toList) := by
  have hlift : ∀ (cs : List SquadCommand) (r : DroneRec), DroneInv commands r →
      DroneInv (commands ++ cs) r := by
    intro cs r hr
    refine ⟨hr.1, fun h0 => ?_⟩
    obtain ⟨c, hc, hcid⟩ := hr.2 h0
    exact ⟨c, List.mem_append_left _ hc, hcid⟩
  simp only [createSquadFromPending]
  split_ifs with h1 h2
  · intro r hmem
    exact hlift _ r (hinv r hmem)
  · intro r hmem
    exact hlift _ r (hinv r hmem)
  · intro r hmem
    simp only [assignDrones, List.mem_map, List.mem_range] at hmem
    obtain ⟨j, hj, hjr⟩ := hmem
    by_cases hmem2 : j ∈ (availIndices drones mode
        (neededCount drones.length ratio)).take (neededCount drones.length ratio)
    · rw [if_pos hmem2] at hjr
      refine ⟨?_, fun _ => ?_⟩
      · rw [← hjr]
        simpa using hid
      · rw [← hjr]
        exact ⟨_, List.mem_append_right _ (List.mem_singleton_self _), rfl⟩
    · rw [if_neg hmem2] at hjr
      have hmemd : drones.getD j dfltDrone ∈ drones := by
        rw [List.getD_eq_getElem drones dfltDrone hj]
        exact List.getElem_mem _
      rw [← hjr]
      exact hlift _ _ (hinv _ hmemd)

theorem removeSquad_inv (id : ℤ) (drones : List DroneRec)
    (commands : List SquadCommand) (hinv : StoreInv drones commands) :
    StoreInv (removeSquad id drones commands).1 (removeSquad id drones commands).2 := by
  unfold removeSquad
  split_ifs with h
  · intro r hmem
    simp only [List.mem_map] at hmem
    obtain ⟨r0, hr0, hr0r⟩ := hmem
    by_cases hcid : r0.commandId = id
    · rw [if_pos hcid] at hr0r
      rw [← hr0r]
      exact DroneInv_reset _ _
    · rw [if_neg hcid] at hr0r
      obtain ⟨h1, h2⟩ := hinv r0 hr0
      refine ⟨by rw [← hr0r]; exact h1, fun h0 => ?_⟩
      rw [← hr0r] at h0 ⊢
      obtain ⟨c, hc, hcd⟩ := h2 h0
      refine ⟨c, List.mem_filter.mpr ⟨hc, ?_⟩, hcd⟩
      simp only [decide_eq_true_eq]
      intro hcon
      exact hcid (by rw [← hcd, hcon])
  · exact hinv

theorem removeDrone_inv (drones : List DroneRec)
    (commands : List SquadCommand) (i : ℕ) (hinv : StoreInv drones commands) :
    StoreInv (removeDrone drones i) commands := by
  intro r hmem
  apply hinv
  have hne : drones ≠ [] := by
    intro hcon
    rw [hcon] at hmem
    simp [removeDrone] at hmem
  simp only [removeDrone] at hmem
  split_ifs at hmem
  · have h1 := List.mem_of_mem_take hmem
    rcases List.mem_or_eq_of_mem_set h1 with h2 | h2
    · exact h2
    · rw [h2, List.getD_eq_getElem drones dfltDrone
        (by cases drones <;> simp_all <;> omega)]
      exact List.getElem_mem _
  · exact List.mem_of_mem_take hmem

theorem meleeCheck_inv (ctx : UpdateCtx) (i : ℕ) (r2 : DroneRec)
    (st : SimState) (hinv : StoreInv st.drones st.commands)
    (hr2 : DroneInv st.commands r2) :
    StoreInv (meleeCheck ctx i r2 st).drones (meleeCheck ctx i r2 st).commands := by
  simp only [meleeCheck]
  split
  · exact StoreInv_set _ _ _ _ hinv hr2
  · split_ifs
    · exact StoreInv_set _ _ _ _ hinv hr2
    · exact StoreInv_set _ _ _ _ hinv hr2

theorem updateSeeking_inv (ctx : UpdateCtx) (i : ℕ) (r : DroneRec)
    (st : SimState) (hr : r = st.drones.getD i dfltDrone)
    (hrs : r.state = DState.seeking) (hinv : StoreInv st.drones st.commands) :
    StoreInv (updateSeeking ctx i r st).drones
      (updateSeeking ctx i r st).commands := by
  have hcid : ¬0 ≤ r.commandId := by
    by_cases hi : i < st.drones.length
    · have hmem : r ∈ st.drones := by
        rw [hr, List.getD_eq_getElem _ _ hi]
        exact List.getElem_mem _
      intro h0
      have := ((hinv r hmem).1.mp h0)
      rw [hrs] at this
      exact absurd this (by decide)
    · rw [hr, List.getD_eq_default _ _ (by omega)]
      decide
  simp only [updateSeeking]
  refine StoreInv_set _ _ _ _ hinv ⟨⟨fun h0 => absurd h0 hcid, fun hst => ?_⟩,
    fun h0 => absurd h0 hcid⟩
  exfalso
  revert hst
  split_ifs <;> simp

theorem updateReturning_inv (ctx : UpdateCtx) (i : ℕ) (r : DroneRec)
    (st : SimState) (hr : r = st.drones.getD i dfltDrone)
    (hrs : r.state = DState.returning)
    (hinv : StoreInv st.drones st.commands) :
    StoreInv (updateReturning ctx i r st).drones
      (updateReturning ctx i r st).commands := by
  have hcid : ¬0 ≤ r.commandId := by
    by_cases hi : i < st.drones.length
    · have hmem : r ∈ st.drones := by
        rw [hr, List.getD_eq_getElem _ _ hi]
        exact List.getElem_mem _
      intro h0
      have := ((hinv r hmem).1.mp h0)
      rw [hrs] at this
      exact absurd this (by decide)
    · rw [hr, List.getD_eq_default _ _ (by omega)]
      decide
  simp only [updateReturning]
  split_ifs
  · refine StoreInv_set _ _ _ _ hinv ⟨⟨fun h0 => absurd h0 hcid, fun hst => ?_⟩,
      fun h0 => absurd h0 hcid⟩
    exact absurd hst (by simp)
  · refine StoreInv_set _ _ _ _ hinv ⟨⟨fun h0 => absurd h0 hcid, fun hst => ?_⟩,
      fun h0 => absurd h0 hcid⟩
    have hst' : r.state = DState.attacking := hst
    rw [hrs] at hst'
    exact absurd hst' (by decide)

theorem updateAttacking_inv (ctx : UpdateCtx) (i : ℕ) (r : DroneRec)
    (st : SimState) (hr : r = st.drones.getD i dfltDrone)
    (hrs : r.state = DState.attacking)
    (hinv : StoreInv st.drones st.commands) :
    StoreInv (updateAttacking ctx i r st).drones
      (updateAttacking ctx i r st).commands := by
  have hi : i < st.drones.length := by
    by_contra hcon
    rw [hr, List.getD_eq_default _ _ (by omega)] at hrs
    exact absurd hrs (by decide)
  have hmem : r ∈ st.drones := by
    rw [hr, List.getD_eq_getElem _ _ hi]
    exact List.getElem_mem _
  obtain ⟨hiff, hex⟩ := hinv r hmem
  have h0 : 0 ≤ r.commandId := hiff.mpr hrs
  obtain ⟨c, hc, hcid⟩ := hex h0
  have hrinv : DroneInv st.commands r := ⟨hiff, hex⟩
  simp only [updateAttacking]
  split
  · rename_i heq
    exfalso
    rw [List.find?_eq_none] at heq
    exact absurd (by simpa using hcid) (by simpa using heq c hc)
  · rename_i cmd heq
    split
    · -- Wall
      exact StoreInv_set _ _ _ _ hinv ⟨hiff, hex⟩
    · -- Swarm
      have hinv1 : StoreInv
          (st.drones.set i
            { r with state := DState.seeking, commandId := -1, targetId := -1 })
          (st.commands.map fun c =>
            if c.id = cmd.id then
              { c with activeDroneCount := cmd.activeDroneCount - 1 }
            else c) := by
        intro r' hmem'
        rcases List.mem_or_eq_of_mem_set hmem' with h1 | h1
        · obtain ⟨hiff', hex'⟩ := hinv r' h1
          refine ⟨hiff', fun h0' => ?_⟩
          obtain ⟨c', hc', hcid'⟩ := hex' h0'
          refine ⟨if c'.id = cmd.id then
              { c' with activeDroneCount := cmd.activeDroneCount - 1 }
            else c', List.mem_map.mpr ⟨c', hc', rfl⟩, ?_⟩
          split_ifs <;> simpa using hcid'
        · rw [h1]
          exact DroneInv_reset _ _
      split_ifs <;>
        first
        | exact meleeCheck_inv ctx i _ st hinv ⟨hiff, hex⟩
        | exact removeSquad_inv cmd.id _ _ hinv1
        | exact hinv1

/-- Per-drone update preserves the invariant (all branches, including the
dangling-command soft failure, which is unreachable from invariant
states). -/
theorem updateSingleDrone_inv (ctx : UpdateCtx) (i : ℕ) (st : SimState)
    (hinv : StoreInv st.drones st.commands) :
    StoreInv (updateSingleDrone ctx i st).drones
      (updateSingleDrone ctx i st).commands := by
  simp only [updateSingleDrone]
  rcases hst : (st.drones.getD i dfltDrone).state with - | - | -
  · exact updateSeeking_inv ctx i _ st rfl hst hinv
  · exact updateReturning_inv ctx i _ st rfl hst hinv
  · exact updateAttacking_inv ctx i _ st rfl hst hinv

end Invariant

section MeleeLemmas

/-!
## Melee damage lemmas (claims C6, C7)
-/

theorem meleeDamage_eq (mult chance sample stride : ℚ) :
    meleeDamage mult chance sample stride =
      2 * mult * (if sample < chance then 3 else 1) * stride := by
  unfold meleeDamage
  split_ifs <;> ring

/-- Qualifying (shield-routed) hit, damage within the shield: the shield
absorbs it fully, hp untouched. -/
theorem applyMelee_shield_absorb (pos : Vec3) (dmg : ℚ) (e : Enemy)
    (hq : notFromBehind pos e.pos ∧ 0 < e.shield) (hd : dmg ≤ e.shield) :
    applyMelee pos dmg e = { e with shield := e.shield - dmg } := by
  unfold applyMelee
  rw [if_pos hq, if_neg (by linarith)]

/-- Qualifying hit exceeding the shield: shield clamps to zero and the
overflow `dmg - shield` carries into hp. -/
theorem applyMelee_shield_overflow (pos : Vec3) (dmg : ℚ) (e : Enemy)
    (hq : notFromBehind pos e.pos ∧ 0 < e.shield) (hd : e.shield < dmg) :
    applyMelee pos dmg e =
      { e with hp := e.hp - (dmg - e.shield), shield := 0 } := by
  unfold applyMelee
  rw [if_pos hq, if_pos (by linarith)]
  have harith : e.hp + (e.shield - dmg) = e.hp - (dmg - e.shield) := by ring
  rw [harith]

/-- Non-qualifying hit: hp takes the damage directly, plus an extra 50%
when a shield is still up (the rear-hit surcharge, line 1294). -/
theorem applyMelee_rear (pos : Vec3) (dmg : ℚ) (e : Enemy)
    (hq : ¬(notFromBehind pos e.pos ∧ 0 < e.shield)) :
    applyMelee pos dmg e =
      { e with hp := if 0 < e.shield then e.hp - dmg - dmg * (1 / 2)
        else e.hp - dmg } := by
  unfold applyMelee
  rw [if_neg hq]

/-- Evaluation of the Swarm attacking branch when the drone has a valid
waypoint and does not arrive this step: it moves toward the waypoint and
then runs the melee check. -/
theorem updateAttacking_swarm_move (ctx : UpdateCtx) (i : ℕ) (r : DroneRec)
    (st : SimState) (cmd : SquadCommand)
    (hfind : st.commands.find? (fun c => decide (c.id = r.commandId)) = some cmd)
    (htype : cmd.type = SquadType.swarm)
    (hidx : ¬((cmd.path.length : ℤ) ≤ r.targetId))
    (hnoarr : ¬(ctx.d r.pos (cmd.path.getD r.targetId.toNat 0) < ctx.move)) :
    updateAttacking ctx i r st =
      meleeCheck ctx i
        { r with pos := (moveToward ctx.d r.pos
            (cmd.path.getD r.targetId.toNat 0) ctx.move) } st := by
  simp only [updateAttacking]
  split
  · rename_i heq
    rw [hfind] at heq
    cases heq
  · rename_i cmd' heq
    rw [hfind] at heq
    obtain rfl : cmd' = cmd := by
      injection heq with h
      exact h.symm
    split
    · rename_i htype'
      rw [htype] at htype'
      cases htype'
    · rw [if_neg hidx, if_neg hnoarr]

/-- Within squared melee range 2500 of the front enemy, `meleeCheck`
applies exactly one damage roll to it and changes nothing else. -/
theorem meleeCheck_hit (ctx : UpdateCtx) (i : ℕ) (r2 : DroneRec)
    (st : SimState) (e : Enemy) (rest : List Enemy)
    (hen : st.enemies = e :: rest) (hin : distSq r2.pos e.pos < 2500) :
    meleeCheck ctx i r2 st =
      { st with
        drones := st.drones.set i r2,
        enemies := applyMelee r2.pos
          (meleeDamage ctx.damageMultiplier ctx.critChance ctx.critSample
            ctx.stride) e :: rest } := by
  simp only [meleeCheck, hen]
  rw [if_pos hin]

/-- Outside melee range of the front enemy, no damage is emitted. -/
theorem meleeCheck_miss (ctx : UpdateCtx) (i : ℕ) (r2 : DroneRec)
    (st : SimState) (e : Enemy) (rest : List Enemy)
    (hen : st.enemies = e :: rest) (hout : ¬distSq r2.pos e.pos < 2500) :
    meleeCheck ctx i r2 st = { st with drones := st.drones.set i r2 } := by
  simp only [meleeCheck, hen]
  rw [if_neg hout]

end MeleeLemmas

section MissileLemmas

/-!
## Missile resolution lemmas (claims C9, C10)
-/

/-- Any missile within the mothership threshold is removed this frame,
whether or not a Wall intercepted it first. -/
theorem missileStep_removes (dt : ℚ) (commands : List SquadCommand)
    (ship : ShipState) (m : Missile)
    (hn : normSq (m.pos + dt • m.vel) < 900) :
    (missileStep dt commands ship m).1 = none := by
  simp only [missileStep]
  split
  · rfl
  · rw [if_pos hn]
    split_ifs <;> rfl

/-- A missile that reaches the mothership check (no Wall hit) within the
threshold: shield up absorbs `2 × damage` with hull untouched; shield
down subtracts `damage` from the hull, and a non-positive hull raises the
game-over flag. -/
theorem missileStep_mothership (dt : ℚ) (commands : List SquadCommand)
    (ship : ShipState) (m : Missile)
    (hmiss : commands.find? (missileHitsCmd (m.pos + dt • m.vel)) = none)
    (hn : normSq (m.pos + dt • m.vel) < 900) :
    (missileStep dt commands ship m).1 = none ∧
      (missileStep dt commands ship m).2.1 = none ∧
      (0 < ship.shieldCurrent →
        (missileStep dt commands ship m).2.2 =
          { ship with shieldCurrent := ship.shieldCurrent - m.damage * 2 }) ∧
      (¬0 < ship.shieldCurrent →
        (missileStep dt commands ship m).2.2 =
          { ship with
            hullIntegrity := ship.hullIntegrity - m.damage,
            gameOver := ship.gameOver ||
              decide (ship.hullIntegrity - m.damage ≤ 0) }) := by
  simp only [missileStep]
  split
  · rename_i heq
    rw [hmiss] at heq
    cases heq
  · rw [if_pos hn]
    split_ifs with hs
    · exact ⟨rfl, rfl, fun _ => rfl, fun hcon => absurd hs hcon⟩
    · exact ⟨rfl, rfl, fun hcon => absurd hcon hs, fun _ => rfl⟩

end MissileLemmas

section WallSlotLemmas

/-!
## Wall slot distribution lemmas (claim C4)
-/

/-- The `a`-th assigned drone (in assignment order) receives
`assignedTarget mode a totalAssigned m`. -/
theorem assignDrones_targetId (mode : SquadType) (wallHP : ℚ) (id : ℤ)
    (toAssign : List ℕ) (m : ℕ) (drones : List DroneRec)
    (hsub : ∀ j ∈ toAssign, j < drones.length) (hnd : toAssign.Nodup)
    (a : ℕ) (ha : a < toAssign.length) :
    ((assignDrones mode wallHP id toAssign m drones).getD (toAssign.getD a 0)
        dfltDrone).targetId = assignedTarget mode a toAssign.length m := by
  have hjl := List.getD_eq_getElem toAssign 0 ha
  have hj : toAssign.getD a 0 ∈ toAssign := by
    rw [hjl]
    exact List.getElem_mem _
  rw [assignDrones_getD mode wallHP id toAssign m drones _ (hsub _ hj),
    if_pos hj]
  show assignedTarget mode (toAssign.indexOf (toAssign.getD a 0))
      toAssign.length m = _
  rw [hjl, List.indexOf_getElem hnd a ha]

theorem assignedTarget_single (mode : SquadType) (a m : ℕ) :
    assignedTarget mode a 1 m = 0 := by
  unfold assignedTarget
  rw [if_neg]
  rintro ⟨-, hcon⟩
  omega

theorem assignedTarget_first (k m : ℕ) :
    assignedTarget SquadType.wall 0 k m = 0 := by
  unfold assignedTarget
  split_ifs
  · simp
  · rfl

theorem assignedTarget_last (k m : ℕ) (hk : 2 ≤ k) (hm : 1 ≤ m) :
    assignedTarget SquadType.wall (k - 1) k m = (m : ℤ) - 1 := by
  unfold assignedTarget
  rw [if_pos ⟨rfl, by omega⟩]
  have hk1 : ((k - 1 : ℕ) : ℚ) = (k : ℚ) - 1 := by
    rw [Nat.cast_sub (by omega), Nat.cast_one]
  have hkne : ((k : ℚ) - 1) ≠ 0 := by
    have : (2 : ℚ) ≤ (k : ℚ) := by exact_mod_cast hk
    intro hcon
    linarith
  rw [hk1, div_self hkne, one_mul]
  have hm1 : ((m : ℚ) - 1) = (((m : ℤ) - 1 : ℤ) : ℚ) := by push_cast; ring
  rw [hm1, Int.floor_intCast]

end WallSlotLemmas

section Claims

/-- Kernel-reducible absolute difference of two rationals. -/
def qdist (u v : ℚ) : ℚ := if u ≤ v then v - u else u - v

/-- A concrete computable metric used to instantiate the distance oracle
in closed instances: the taxicab distance (a true metric on `Vec3`). -/
def dTaxi (a b : Vec3) : ℚ := qdist a.x b.x + qdist a.y b.y + qdist a.z b.z

/-- C1 (Stride equivalence): a drone steering straight at a fixed distant
target with per-update budget `speed * 20 * dt * stride`, updated on the
frames its stride loop selects, covers `speed * 20 * dt` per frame on
average whatever the stride: at stride 1 the displacement over `n` frames
is exactly `speed * 20 * dt * n`, and at stride `k` it differs from that
by at most `speed * 20 * dt * (k - 1)` — less than one update's movement
budget, so the average simulated displacement per real second is
stride-independent up to `±ε`. -/
theorem stride_equivalence (speed dt : ℚ) (k i n : ℕ)
    (hsp : 0 ≤ speed) (hdt : 0 ≤ dt) (hk : 0 < k) :
    netDisplacement speed dt 1 i n = speed * 20 * dt * n ∧
      |netDisplacement speed dt k i n - netDisplacement speed dt 1 i n| ≤
        speed * 20 * dt * ((k : ℚ) - 1) := by
  constructor
  · unfold netDisplacement strideMove
    rw [strideUpdates_one]
    push_cast
    ring
  · exact netDisplacement_stride_bound speed dt k i n hsp hdt hk

theorem stride_equivalence_witness :
    (0 : ℚ) ≤ 1 ∧ (0 : ℚ) ≤ 1 / 60 ∧ 0 < 3 ∧
      (netDisplacement 1 (1 / 60) 1 7 100 = 1 * 20 * (1 / 60) * 100 ∧
        |netDisplacement 1 (1 / 60) 3 7 100 - netDisplacement 1 (1 / 60) 1 7 100| ≤
          1 * 20 * (1 / 60) * ((3 : ℚ) - 1)) :=
  ⟨by norm_num, by norm_num, by norm_num,
    stride_equivalence 1 (1 / 60) 3 7 100 (by norm_num) (by norm_num)
      (by norm_num)⟩

/-- C2 (`interpolatePath`): degenerate input (fewer than 2 points, or
total reported length at most the 0.1 threshold) is returned unchanged;
otherwise, for any target count `N ≥ 2`, the output has exactly `N`
points, its first and last points equal the input's; and on a straight
two-point input consecutive outputs differ by the constant vector
`(q - p) / (N - 1)`, i.e. they are spaced exactly `L / (N - 1)` apart in
the metric. -/
theorem interpolatePath_spec (d : Vec3 → Vec3 → ℚ) (points : List Vec3)
    (N : ℕ) :
    (points.length < 2 → interpolatePath d points N = points) ∧
      ((segDists d points).sum ≤ 1 / 10 → interpolatePath d points N = points) ∧
      (2 ≤ points.length → 1 / 10 < (segDists d points).sum → 2 ≤ N →
        (interpolatePath d points N).length = N ∧
          (interpolatePath d points N).headD 0 = points.headD 0 ∧
          (interpolatePath d points N).getLastD 0 = points.getLastD 0) ∧
      (∀ p q : Vec3, points = [p, q] → 1 / 10 < d p q → 2 ≤ N →
        ∀ j, j + 1 < N →
          (interpolatePath d points N).getD (j + 1) 0 -
              (interpolatePath d points N).getD j 0 =
            (1 / ((N : ℚ) - 1)) • (q - p)) := by
  refine ⟨fun h => interpolatePath_degenerate_short d points N h,
    fun h => interpolatePath_degenerate_len d points N h,
    fun h1 h2 h3 => ⟨interpolatePath_length d points N h1 h2 h3,
      interpolatePath_head d points N h1 h2,
      interpolatePath_last d points N h1 h2⟩,
    fun p q hpq hL hN j hj => ?_⟩
  rw [hpq]
  exact interpolatePath_pair_spacing d p q N hL hN j hj

theorem interpolatePath_spec_witness :
    (2 ≤ ([⟨0, 0, 0⟩, ⟨3, 0, 0⟩] : List Vec3).length) ∧
      (1 / 10 : ℚ) < (segDists dTaxi [⟨0, 0, 0⟩, ⟨3, 0, 0⟩]).sum ∧
      (1 / 10 : ℚ) < dTaxi ⟨0, 0, 0⟩ ⟨3, 0, 0⟩ ∧ 2 ≤ 4 ∧ 0 + 1 < 4 ∧
      ((interpolatePath dTaxi [⟨0, 0, 0⟩, ⟨3, 0, 0⟩] 4).length = 4 ∧
        (interpolatePath dTaxi [⟨0, 0, 0⟩, ⟨3, 0, 0⟩] 4).headD 0 =
          ([⟨0, 0, 0⟩, ⟨3, 0, 0⟩] : List Vec3).headD 0 ∧
        (interpolatePath dTaxi [⟨0, 0, 0⟩, ⟨3, 0, 0⟩] 4).getLastD 0 =
          ([⟨0, 0, 0⟩, ⟨3, 0, 0⟩] : List Vec3).getLastD 0) ∧
      (interpolatePath dTaxi [⟨0, 0, 0⟩, ⟨3, 0, 0⟩] 4).getD (0 + 1) 0 -
          (interpolatePath dTaxi [⟨0, 0, 0⟩, ⟨3, 0, 0⟩] 4).getD 0 0 =
        (1 / ((4 : ℚ) - 1)) • ((⟨3, 0, 0⟩ : Vec3) - ⟨0, 0, 0⟩) := by
  obtain ⟨-, -, h3, h4⟩ := interpolatePath_spec dTaxi [⟨0, 0, 0⟩, ⟨3, 0, 0⟩] 4
  have hsum : (1 / 10 : ℚ) < (segDists dTaxi [⟨0, 0, 0⟩, ⟨3, 0, 0⟩]).sum := by
    norm_num [segDists, dTaxi, qdist]
  have hd : (1 / 10 : ℚ) < dTaxi ⟨0, 0, 0⟩ ⟨3, 0, 0⟩ := by
    norm_num [dTaxi, qdist]
  refine ⟨by decide, hsum, hd, by decide, by decide,
    h3 (by decide) hsum (by decide),
    h4 ⟨0, 0, 0⟩ ⟨3, 0, 0⟩ rfl hd (by decide) 0 (by decide)⟩

/-- C7 (Enemy shield overflow carry): a shield-routed hit of damage `dmg`
on a shield `s > 0` leaves hp unchanged when `dmg ≤ s` (shield becomes
`s - dmg`), and when `dmg > s` clamps the shield to exactly 0 and carries
exactly `dmg - s` into hp. -/
theorem enemy_shield_overflow_carry (pos : Vec3) (dmg : ℚ) (e : Enemy)
    (hq : notFromBehind pos e.pos ∧ 0 < e.shield) :
    (dmg ≤ e.shield →
        applyMelee pos dmg e = { e with shield := e.shield - dmg }) ∧
      (e.shield < dmg →
        applyMelee pos dmg e =
          { e with hp := e.hp - (dmg - e.shield), shield := 0 }) :=
  ⟨fun hd => applyMelee_shield_absorb pos dmg e hq hd,
    fun hd => applyMelee_shield_overflow pos dmg e hq hd⟩

theorem enemy_shield_overflow_carry_witness :
    (notFromBehind ⟨0, 0, 40⟩ (Enemy.mk ⟨0, 0, 50⟩ 100 10).pos ∧
        (0 : ℚ) < (Enemy.mk ⟨0, 0, 50⟩ 100 10).shield) ∧
      (Enemy.mk ⟨0, 0, 50⟩ 100 10).shield < 15 ∧
      applyMelee ⟨0, 0, 40⟩ 15 (Enemy.mk ⟨0, 0, 50⟩ 100 10) =
        Enemy.mk ⟨0, 0, 50⟩ 95 0 := by
  have hq : notFromBehind ⟨0, 0, 40⟩ (Enemy.mk ⟨0, 0, 50⟩ 100 10).pos ∧
      (0 : ℚ) < (Enemy.mk ⟨0, 0, 50⟩ 100 10).shield := by
    constructor
    · norm_num [notFromBehind, dot3, normSq, Vec3.zero_x, Vec3.zero_y, Vec3.zero_z, Vec3.sub_def]
    · norm_num
  refine ⟨hq, by norm_num, ?_⟩
  have h := (enemy_shield_overflow_carry ⟨0, 0, 40⟩ 15
    (Enemy.mk ⟨0, 0, 50⟩ 100 10) hq).2 (by norm_num)
  rw [h]
  simp only [Enemy.mk.injEq]
  norm_num

/-- C8 (Swap-with-last removal): `removeDrone i` shrinks the store by
exactly one slot, copies the full last record into slot `i` (when `i` was
not already the last), leaves every other live slot unchanged, and the
remaining live records are exactly the previous live records minus the
removed one (a permutation of `eraseIdx i`). -/
theorem swap_with_last_removal (drones : List DroneRec) (i : ℕ)
    (hi : i < drones.length) :
    (removeDrone drones i).length = drones.length - 1 ∧
      (∀ j, j < drones.length - 1 → j ≠ i →
        (removeDrone drones i).getD j dfltDrone = drones.getD j dfltDrone) ∧
      (i < drones.length - 1 →
        (removeDrone drones i).getD i dfltDrone =
          drones.getD (drones.length - 1) dfltDrone) ∧
      (removeDrone drones i).Perm (drones.eraseIdx i) :=
  ⟨removeDrone_length drones i hi,
    fun j hj hij => removeDrone_getD_other drones i j hj hij,
    fun hlt => removeDrone_getD_self drones i hlt,
    removeDrone_perm drones i hi⟩

theorem swap_with_last_removal_witness :
    0 < ([DroneRec.mk DState.seeking (-1) (-1) 0 7 0,
        DroneRec.mk DState.seeking (-1) (-1) 0 8 0,
        DroneRec.mk DState.seeking (-1) (-1) 0 9 0] : List DroneRec).length ∧
      (removeDrone [DroneRec.mk DState.seeking (-1) (-1) 0 7 0,
          DroneRec.mk DState.seeking (-1) (-1) 0 8 0,
          DroneRec.mk DState.seeking (-1) (-1) 0 9 0] 0).length = 2 ∧
      (removeDrone [DroneRec.mk DState.seeking (-1) (-1) 0 7 0,
          DroneRec.mk DState.seeking (-1) (-1) 0 8 0,
          DroneRec.mk DState.seeking (-1) (-1) 0 9 0] 0).getD 1 dfltDrone =
        DroneRec.mk DState.seeking (-1) (-1) 0 8 0 ∧
      (removeDrone [DroneRec.mk DState.seeking (-1) (-1) 0 7 0,
          DroneRec.mk DState.seeking (-1) (-1) 0 8 0,
          DroneRec.mk DState.seeking (-1) (-1) 0 9 0] 0).getD 0 dfltDrone =
        DroneRec.mk DState.seeking (-1) (-1) 0 9 0 ∧
      (removeDrone [DroneRec.mk DState.seeking (-1) (-1) 0 7 0,
          DroneRec.mk DState.seeking (-1) (-1) 0 8 0,
          DroneRec.mk DState.seeking (-1) (-1) 0 9 0] 0).Perm
        (([DroneRec.mk DState.seeking (-1) (-1) 0 7 0,
          DroneRec.mk DState.seeking (-1) (-1) 0 8 0,
          DroneRec.mk DState.seeking (-1) (-1) 0 9 0] : List DroneRec).eraseIdx 0) := by
  obtain ⟨h1, h2, h3, h4⟩ := swap_with_last_removal
    [DroneRec.mk DState.seeking (-1) (-1) 0 7 0,
      DroneRec.mk DState.seeking (-1) (-1) 0 8 0,
      DroneRec.mk DState.seeking (-1) (-1) 0 9 0] 0 (by decide)
  refine ⟨by decide, by simpa using h1, ?_, ?_, h4⟩
  · rw [h2 1 (by decide) (by decide)]
    rfl
  · rw [h3 (by decide)]
    rfl

/-- C9 (Mothership hit handling): any missile within squared distance 900
of the origin is removed this frame; when it reaches the mothership check
(no Wall intercepted it), a positive shield absorbs `2 × damage` leaving
hull and the game-over flag untouched, while a non-positive shield passes
`damage` to the hull and a resulting hull ≤ 0 raises the game-over
flag. -/
theorem mothership_hit_handling (dt : ℚ) (commands : List SquadCommand)
    (ship : ShipState) (m : Missile)
    (hn : normSq (m.pos + dt • m.vel) < 900) :
    (missileStep dt commands ship m).1 = none ∧
      (commands.find? (missileHitsCmd (m.pos + dt • m.vel)) = none →
        (0 < ship.shieldCurrent →
          (missileStep dt commands ship m).2.2 =
            { ship with shieldCurrent := ship.shieldCurrent - m.damage * 2 }) ∧
        (¬0 < ship.shieldCurrent →
          (missileStep dt commands ship m).2.2 =
            { ship with
              hullIntegrity := ship.hullIntegrity - m.damage,
              gameOver := ship.gameOver ||
                decide (ship.hullIntegrity - m.damage ≤ 0) })) := by
  refine ⟨missileStep_removes dt commands ship m hn, fun hmiss => ?_⟩
  obtain ⟨-, -, h3, h4⟩ := missileStep_mothership dt commands ship m hmiss hn
  exact ⟨h3, h4⟩

theorem mothership_hit_handling_witness :
    normSq ((Missile.mk ⟨0, 0, 20⟩ 0 15).pos +
        (1 : ℚ) • (Missile.mk ⟨0, 0, 20⟩ 0 15).vel) < 900 ∧
      (missileStep 1 [] (ShipState.mk 10 100 false)
        (Missile.mk ⟨0, 0, 20⟩ 0 15)).1 = none ∧
      (missileStep 1 [] (ShipState.mk 10 100 false)
        (Missile.mk ⟨0, 0, 20⟩ 0 15)).2.2 = ShipState.mk (-20) 100 false := by
  have hn : normSq ((Missile.mk ⟨0, 0, 20⟩ 0 15).pos +
      (1 : ℚ) • (Missile.mk ⟨0, 0, 20⟩ 0 15).vel) < 900 := by
    norm_num [normSq, dot3, Vec3.zero_x, Vec3.zero_y, Vec3.zero_z,
      Vec3.add_def, Vec3.sub_def, Vec3.smul_def]
  have h := mothership_hit_handling 1 [] (ShipState.mk 10 100 false)
    (Missile.mk ⟨0, 0, 20⟩ 0 15) hn
  refine ⟨hn, h.1, ?_⟩
  have h2 := (h.2 rfl).1 (by norm_num)
  rw [h2]
  simp only [ShipState.mk.injEq]
  norm_num

/-- C10 (no clamp on mothership shield): a missile of damage `dmg`
arriving while `0 < shield < 2·dmg` drives the shield strictly negative
(to `shield - 2·dmg`), the hull and game-over flag are untouched (the
overflow is dropped, not carried), and the regeneration step then climbs
from that negative value: it adds `regen * dt * 20` (capped at the max)
and strictly increases the shield whenever `regen * dt > 0`. -/
theorem mothership_shield_no_clamp (dt : ℚ) (commands : List SquadCommand)
    (ship : ShipState) (m : Missile)
    (hmiss : commands.find? (missileHitsCmd (m.pos + dt • m.vel)) = none)
    (hn : normSq (m.pos + dt • m.vel) < 900)
    (hs0 : 0 < ship.shieldCurrent) (hs2 : ship.shieldCurrent < 2 * m.damage) :
    ((missileStep dt commands ship m).2.2).shieldCurrent =
        ship.shieldCurrent - m.damage * 2 ∧
      ((missileStep dt commands ship m).2.2).shieldCurrent < 0 ∧
      ((missileStep dt commands ship m).2.2).hullIntegrity =
        ship.hullIntegrity ∧
      ((missileStep dt commands ship m).2.2).gameOver = ship.gameOver ∧
      (∀ shieldMax shieldRegen dt2 : ℚ, 0 < shieldRegen →
        ship.shieldCurrent - m.damage * 2 < shieldMax →
          shieldRegenStep dt2 shieldMax shieldRegen
              (ship.shieldCurrent - m.damage * 2) =
            min shieldMax
              (ship.shieldCurrent - m.damage * 2 + shieldRegen * dt2 * 20) ∧
          (0 < shieldRegen * dt2 →
            ship.shieldCurrent - m.damage * 2 <
              shieldRegenStep dt2 shieldMax shieldRegen
                (ship.shieldCurrent - m.damage * 2))) := by
  obtain ⟨-, -, h3, -⟩ := missileStep_mothership dt commands ship m hmiss hn
  rw [h3 hs0]
  refine ⟨rfl, ?_, rfl, rfl, fun shieldMax shieldRegen dt2 hr hmax => ?_⟩
  · show ship.shieldCurrent - m.damage * 2 < 0
    linarith
  have hregen : shieldRegenStep dt2 shieldMax shieldRegen
      (ship.shieldCurrent - m.damage * 2) =
        min shieldMax (ship.shieldCurrent - m.damage * 2 + shieldRegen * dt2 * 20) := by
    unfold shieldRegenStep
    rw [if_pos ⟨hmax, hr⟩]
  refine ⟨hregen, fun hpos => ?_⟩
  rw [hregen]
  refine lt_min hmax ?_
  nlinarith

theorem mothership_shield_no_clamp_witness :
    (([] : List SquadCommand).find? (missileHitsCmd
        ((Missile.mk ⟨0, 0, 20⟩ 0 15).pos +
          (1 : ℚ) • (Missile.mk ⟨0, 0, 20⟩ 0 15).vel)) = none) ∧
      normSq ((Missile.mk ⟨0, 0, 20⟩ 0 15).pos +
        (1 : ℚ) • (Missile.mk ⟨0, 0, 20⟩ 0 15).vel) < 900 ∧
      (0 : ℚ) < 10 ∧ (10 : ℚ) < 2 * 15 ∧
      ((missileStep 1 [] (ShipState.mk 10 100 false)
          (Missile.mk ⟨0, 0, 20⟩ 0 15)).2.2).shieldCurrent = 10 - 15 * 2 ∧
      ((missileStep 1 [] (ShipState.mk 10 100 false)
          (Missile.mk ⟨0, 0, 20⟩ 0 15)).2.2).shieldCurrent < 0 ∧
      ((missileStep 1 [] (ShipState.mk 10 100 false)
          (Missile.mk ⟨0, 0, 20⟩ 0 15)).2.2).hullIntegrity = 100 ∧
      shieldRegenStep 1 50 2 (10 - 15 * 2) = min 50 (10 - 15 * 2 + 2 * 1 * 20) := by
  have hn : normSq ((Missile.mk ⟨0, 0, 20⟩ 0 15).pos +
      (1 : ℚ) • (Missile.mk ⟨0, 0, 20⟩ 0 15).vel) < 900 := by
    norm_num [normSq, dot3, Vec3.zero_x, Vec3.zero_y, Vec3.zero_z,
      Vec3.add_def, Vec3.sub_def, Vec3.smul_def]
  have h := mothership_shield_no_clamp 1 [] (ShipState.mk 10 100 false)
    (Missile.mk ⟨0, 0, 20⟩ 0 15) rfl hn (by norm_num) (by norm_num)
  obtain ⟨h1, h2, h3, -, h5⟩ := h
  refine ⟨rfl, hn, by norm_num, by norm_num, h1, h2, h3, ?_⟩
  exact (h5 50 2 1 (by norm_num) (by norm_num)).1

/-- C3 (Squad assignment counts): submitting a ≥2-point path with an
empty eligible pool creates no command, changes no drone, and emits the
"no idle units" notice; otherwise exactly
`min(max(1, ⌊droneCount·deploymentRatio⌋), eligible-pool size)` drones
become Attacking with the new command id, and the command's
`activeDroneCount` equals that number. -/
theorem squad_assignment_counts (d : Vec3 → Vec3 → ℚ) (path : List Vec3)
    (mode : SquadType) (ratio wallHP : ℚ) (id : ℤ) (drones : List DroneRec)
    (hpath : 2 ≤ path.length)
    (hfresh : ∀ r ∈ drones, r.commandId ≠ id) :
    (eligiblePool drones mode = [] →
      createSquadFromPending d path mode ratio wallHP id drones =
        ⟨drones, none, true⟩) ∧
      (eligiblePool drones mode ≠ [] →
        ∃ cmd : SquadCommand,
          (createSquadFromPending d path mode ratio wallHP id drones).newCommand
            = some cmd ∧
          (createSquadFromPending d path mode ratio wallHP id drones).noIdleNotice
            = false ∧
          cmd.id = id ∧
          cmd.activeDroneCount =
            ((min (neededCount drones.length ratio)
              (eligiblePool drones mode).length : ℕ) : ℤ) ∧
          ((createSquadFromPending d path mode ratio wallHP id drones).drones.filter
              fun r => decide (r.state = DState.attacking) &&
                decide (r.commandId = id)).length =
            min (neededCount drones.length ratio)
              (eligiblePool drones mode).length ∧
          (createSquadFromPending d path mode ratio wallHP id drones).drones.length
            = drones.length) := by
  have hn1 : 1 ≤ neededCount drones.length ratio := neededCount_pos _ _
  have hiff := availIndices_eq_nil_iff drones mode
    (neededCount drones.length ratio) hn1
  constructor
  · intro hpool
    exact createSquad_reject d path mode ratio wallHP id drones hpath
      (hiff.mpr hpool)
  · intro hpool
    have hav : availIndices drones mode (neededCount drones.length ratio) ≠ [] :=
      fun hcon => hpool (hiff.mp hcon)
    rw [createSquad_eval d path mode ratio wallHP id drones hpath hav]
    refine ⟨_, rfl, rfl, rfl, ?_, ?_, ?_⟩
    · show (((availIndices drones mode
          (neededCount drones.length ratio)).take
            (neededCount drones.length ratio)).length : ℤ) = _
      rw [assign_count_eq drones mode (neededCount drones.length ratio) hn1]
    · rw [assignDrones_count mode wallHP id _ _ drones hfresh
        (fun j hj => mem_availIndices_lt drones mode
          (neededCount drones.length ratio) j (List.mem_of_mem_take hj))
        ((List.take_sublist _ _).nodup
          (availIndices_nodup drones mode (neededCount drones.length ratio)))]
      exact assign_count_eq drones mode (neededCount drones.length ratio) hn1
    · exact assignDrones_length mode wallHP id _ _ drones

set_option maxRecDepth 40000 in
theorem squad_assignment_counts_witness :
    2 ≤ ([⟨0, 0, 0⟩, ⟨200, 0, 0⟩] : List Vec3).length ∧
      (∀ r ∈ List.replicate 100 dfltDrone, r.commandId ≠ 1) ∧
      eligiblePool (List.replicate 100 dfltDrone) SquadType.swarm ≠ [] ∧
      neededCount (List.replicate 100 dfltDrone).length (1 / 2) = 50 ∧
      (eligiblePool (List.replicate 100 dfltDrone) SquadType.swarm).length = 100 ∧
      (∃ cmd : SquadCommand,
        (createSquadFromPending dTaxi [⟨0, 0, 0⟩, ⟨200, 0, 0⟩] SquadType.swarm
          (1 / 2) 1 1 (List.replicate 100 dfltDrone)).newCommand = some cmd ∧
        (createSquadFromPending dTaxi [⟨0, 0, 0⟩, ⟨200, 0, 0⟩] SquadType.swarm
          (1 / 2) 1 1 (List.replicate 100 dfltDrone)).noIdleNotice = false ∧
        cmd.id = 1 ∧
        cmd.activeDroneCount =
          ((min (neededCount (List.replicate 100 dfltDrone).length (1 / 2))
            (eligiblePool (List.replicate 100 dfltDrone) SquadType.swarm).length
              : ℕ) : ℤ) ∧
        ((createSquadFromPending dTaxi [⟨0, 0, 0⟩, ⟨200, 0, 0⟩] SquadType.swarm
            (1 / 2) 1 1 (List.replicate 100 dfltDrone)).drones.filter
            fun r => decide (r.state = DState.attacking) &&
              decide (r.commandId = 1)).length =
          min (neededCount (List.replicate 100 dfltDrone).length (1 / 2))
            (eligiblePool (List.replicate 100 dfltDrone) SquadType.swarm).length ∧
        (createSquadFromPending dTaxi [⟨0, 0, 0⟩, ⟨200, 0, 0⟩] SquadType.swarm
          (1 / 2) 1 1 (List.replicate 100 dfltDrone)).drones.length =
          (List.replicate 100 dfltDrone).length) := by
  have hfresh : ∀ r ∈ List.replicate 100 dfltDrone, r.commandId ≠ 1 := by
    intro r hr
    rw [List.eq_of_mem_replicate hr]
    decide
  have hneed : neededCount (List.replicate 100 dfltDrone).length (1 / 2) = 50 := by
    simp only [neededCount, List.length_replicate]
    norm_num
    decide
  refine ⟨by decide, hfresh, by decide, hneed, by decide, ?_⟩
  exact (squad_assignment_counts dTaxi [⟨0, 0, 0⟩, ⟨200, 0, 0⟩] SquadType.swarm
    (1 / 2) 1 1 (List.replicate 100 dfltDrone) (by decide) hfresh).2 (by decide)

/-- C5 (commandId back-reference invariant): the invariant "`commandId ≥ 0`
iff the drone is Attacking, and every such `commandId` names a command in
the registry" is preserved by squad creation (with a fresh non-negative
id), squad removal, the per-drone update (every branch, including the
dangling-command soft failure, Swarm path completion and detachment), and
swap-with-last combat removal. -/
theorem command_backref_invariant :
    (∀ (d : Vec3 → Vec3 → ℚ) (path : List Vec3) (mode : SquadType)
      (ratio wallHP : ℚ) (id : ℤ) (drones : List DroneRec)
      (commands : List SquadCommand), 0 ≤ id →
      StoreInv drones commands →
      StoreInv (createSquadFromPending d path mode ratio wallHP id drones).drones
        (commands ++
          (createSquadFromPending d path mode ratio wallHP id
            drones).newCommand.toList)) ∧
      (∀ (id : ℤ) (drones : List DroneRec) (commands : List SquadCommand),
        StoreInv drones commands →
        StoreInv (removeSquad id drones commands).1
          (removeSquad id drones commands).2) ∧
      (∀ (ctx : UpdateCtx) (i : ℕ) (st : SimState),
        StoreInv st.drones st.commands →
        StoreInv (updateSingleDrone ctx i st).drones
          (updateSingleDrone ctx i st).commands) ∧
      (∀ (drones : List DroneRec) (commands : List SquadCommand) (i : ℕ),
        StoreInv drones commands → StoreInv (removeDrone drones i) commands) :=
  ⟨fun d path mode ratio wallHP id drones commands hid hinv =>
      createSquad_inv d path mode ratio wallHP id drones commands hid hinv,
    fun id drones commands hinv => removeSquad_inv id drones commands hinv,
    fun ctx i st hinv => updateSingleDrone_inv ctx i st hinv,
    fun drones commands i hinv => removeDrone_inv drones commands i hinv⟩

theorem command_backref_invariant_witness :
    StoreInv [DroneRec.mk DState.attacking 0 1 0 1 0,
        DroneRec.mk DState.seeking (-1) (-1) 0 1 0]
      [SquadCommand.mk 1 SquadType.swarm [⟨0, 0, 0⟩, ⟨50, 0, 0⟩] [] 0 0 1] ∧
      (0 : ℤ) ≤ 2 ∧
      StoreInv (createSquadFromPending dTaxi [⟨0, 0, 0⟩, ⟨50, 0, 0⟩]
          SquadType.swarm 1 1 2
          [DroneRec.mk DState.attacking 0 1 0 1 0,
            DroneRec.mk DState.seeking (-1) (-1) 0 1 0]).drones
        ([SquadCommand.mk 1 SquadType.swarm [⟨0, 0, 0⟩, ⟨50, 0, 0⟩] [] 0 0 1] ++
          (createSquadFromPending dTaxi [⟨0, 0, 0⟩, ⟨50, 0, 0⟩]
            SquadType.swarm 1 1 2
            [DroneRec.mk DState.attacking 0 1 0 1 0,
              DroneRec.mk DState.seeking (-1) (-1) 0 1 0]).newCommand.toList) ∧
      StoreInv (removeSquad 1
          [DroneRec.mk DState.attacking 0 1 0 1 0,
            DroneRec.mk DState.seeking (-1) (-1) 0 1 0]
          [SquadCommand.mk 1 SquadType.swarm [⟨0, 0, 0⟩, ⟨50, 0, 0⟩] [] 0 0 1]).1
        (removeSquad 1
          [DroneRec.mk DState.attacking 0 1 0 1 0,
            DroneRec.mk DState.seeking (-1) (-1) 0 1 0]
          [SquadCommand.mk 1 SquadType.swarm [⟨0, 0, 0⟩, ⟨50, 0, 0⟩] [] 0 0 1]).2 ∧
      StoreInv (updateSingleDrone
          (UpdateCtx.mk dTaxi 1 1 (1 / 60) [] 0 0 0 1 (1 / 20) 1 1) 0
          (SimState.mk
            [DroneRec.mk DState.attacking 0 1 0 1 0,
              DroneRec.mk DState.seeking (-1) (-1) 0 1 0]
            [SquadCommand.mk 1 SquadType.swarm [⟨0, 0, 0⟩, ⟨50, 0, 0⟩] [] 0 0 1]
            [] 0)).drones
        (updateSingleDrone
          (UpdateCtx.mk dTaxi 1 1 (1 / 60) [] 0 0 0 1 (1 / 20) 1 1) 0
          (SimState.mk
            [DroneRec.mk DState.attacking 0 1 0 1 0,
              DroneRec.mk DState.seeking (-1) (-1) 0 1 0]
            [SquadCommand.mk 1 SquadType.swarm [⟨0, 0, 0⟩, ⟨50, 0, 0⟩] [] 0 0 1]
            [] 0)).commands ∧
      StoreInv (removeDrone
          [DroneRec.mk DState.attacking 0 1 0 1 0,
            DroneRec.mk DState.seeking (-1) (-1) 0 1 0] 0)
        [SquadCommand.mk 1 SquadType.swarm [⟨0, 0, 0⟩, ⟨50, 0, 0⟩] [] 0 0 1] := by
  have hinv : StoreInv [DroneRec.mk DState.attacking 0 1 0 1 0,
      DroneRec.mk DState.seeking (-1) (-1) 0 1 0]
      [SquadCommand.mk 1 SquadType.swarm [⟨0, 0, 0⟩, ⟨50, 0, 0⟩] [] 0 0 1] := by
    decide
  refine ⟨hinv, by decide, ?_, ?_, ?_, ?_⟩
  · exact command_backref_invariant.1 dTaxi [⟨0, 0, 0⟩, ⟨50, 0, 0⟩]
      SquadType.swarm 1 1 2 _ _ (by decide) hinv
  · exact command_backref_invariant.2.1 1 _ _ hinv
  · exact command_backref_invariant.2.2.1
      (UpdateCtx.mk dTaxi 1 1 (1 / 60) [] 0 0 0 1 (1 / 20) 1 1) 0 _ hinv
  · exact command_backref_invariant.2.2.2 _ _ 0 hinv

/-- C4 counterexample: with 3 drones assigned to a Wall over 1000 spread
points, the drone at assignment position 1 receives
`targetRef = ⌊1/2 · 999⌋ = 499`, whereas the claimed formula
`round(1/2 · 999)` gives 500 — the code floors, it does not round. -/
theorem wall_slot_round_counterexample :
    ((createSquadFromPending dTaxi [⟨0, 0, 0⟩, ⟨1, 0, 0⟩] SquadType.wall 1 5 1
        (List.replicate 3 dfltDrone)).drones.getD 1 dfltDrone).targetId = 499 ∧
      round ((1 : ℚ) / ((3 : ℚ) - 1) * ((1000 : ℚ) - 1)) = 500 ∧
      (499 : ℤ) ≠ 500 := by
  have hneed : neededCount (List.replicate 3 dfltDrone).length (1 : ℚ) = 3 := by
    simp only [neededCount, List.length_replicate]
    norm_num
    decide
  have hm : (interpolatePath dTaxi [⟨0, 0, 0⟩, ⟨1, 0, 0⟩] 1000).length = 1000 :=
    interpolatePath_length dTaxi _ 1000 (by decide)
      (by norm_num [segDists, dTaxi, qdist]) (by norm_num)
  have hav : availIndices (List.replicate 3 dfltDrone) SquadType.wall
      (neededCount (List.replicate 3 dfltDrone).length (1 : ℚ)) ≠ [] := by
    rw [hneed]
    decide
  refine ⟨?_, by norm_num [round_eq], by decide⟩
  rw [createSquad_eval dTaxi [⟨0, 0, 0⟩, ⟨1, 0, 0⟩] SquadType.wall 1 5 1
    (List.replicate 3 dfltDrone) (by decide) hav]
  rw [hneed, hm]
  have htake : (availIndices (List.replicate 3 dfltDrone) SquadType.wall 3).take 3
      = [0, 1, 2] := by decide
  rw [htake]
  have htgt := assignDrones_targetId SquadType.wall 5 1 [0, 1, 2] 1000
    (List.replicate 3 dfltDrone) (by decide) (by decide) 1 (by decide)
  have hgetD : ([0, 1, 2] : List ℕ).getD 1 0 = 1 := rfl
  rw [hgetD] at htgt
  rw [htgt]
  show assignedTarget SquadType.wall 1 3 1000 = 499
  unfold assignedTarget
  rw [if_pos ⟨rfl, by omega⟩]
  norm_num

/-- C4 (amended: the code floors rather than rounds): when `k` drones are
assigned to a Wall command with `m` spread points, the `a`-th assigned
drone receives `targetRef = assignedTarget wall a k m`, which equals
`⌊a/(k-1) · (m-1)⌋` for `k > 1` and `0` for `k = 1`; in particular drone 0
maps to slot 0 and drone `k-1` maps to slot `m-1`. -/
theorem wall_slot_assignment (d : Vec3 → Vec3 → ℚ) (path : List Vec3)
    (ratio wallHP : ℚ) (id : ℤ) (drones : List DroneRec)
    (hpath : 2 ≤ path.length)
    (hav : availIndices drones SquadType.wall
      (neededCount drones.length ratio) ≠ []) :
    (∀ a, a < ((availIndices drones SquadType.wall
        (neededCount drones.length ratio)).take
          (neededCount drones.length ratio)).length →
      ((createSquadFromPending d path SquadType.wall ratio wallHP id
          drones).drones.getD
        (((availIndices drones SquadType.wall
          (neededCount drones.length ratio)).take
            (neededCount drones.length ratio)).getD a 0) dfltDrone).targetId =
        assignedTarget SquadType.wall a
          ((availIndices drones SquadType.wall
            (neededCount drones.length ratio)).take
              (neededCount drones.length ratio)).length
          (interpolatePath d path 1000).length) ∧
      (∀ a k m : ℕ, 1 < k →
        assignedTarget SquadType.wall a k m =
          ⌊(a : ℚ) / ((k : ℚ) - 1) * ((m : ℚ) - 1)⌋) ∧
      (∀ a m : ℕ, assignedTarget SquadType.wall a 1 m = 0) ∧
      (∀ k m : ℕ, assignedTarget SquadType.wall 0 k m = 0) ∧
      (∀ k m : ℕ, 2 ≤ k → 1 ≤ m →
        assignedTarget SquadType.wall (k - 1) k m = (m : ℤ) - 1) := by
  refine ⟨fun a ha => ?_,
    fun a k m hk => by unfold assignedTarget; rw [if_pos ⟨rfl, hk⟩],
    fun a m => assignedTarget_single SquadType.wall a m,
    fun k m => assignedTarget_first k m,
    fun k m hk hm => assignedTarget_last k m hk hm⟩
  rw [createSquad_eval d path SquadType.wall ratio wallHP id drones hpath hav]
  exact assignDrones_targetId SquadType.wall wallHP id _ _ drones
    (fun j hj => mem_availIndices_lt drones SquadType.wall
      (neededCount drones.length ratio) j (List.mem_of_mem_take hj))
    ((List.take_sublist _ _).nodup
      (availIndices_nodup drones SquadType.wall
        (neededCount drones.length ratio))) a ha

theorem wall_slot_assignment_witness :
    2 ≤ ([⟨0, 0, 0⟩, ⟨1, 0, 0⟩] : List Vec3).length ∧
      availIndices (List.replicate 3 dfltDrone) SquadType.wall
        (neededCount (List.replicate 3 dfltDrone).length 1) ≠ [] ∧
      0 < ((availIndices (List.replicate 3 dfltDrone) SquadType.wall
        (neededCount (List.replicate 3 dfltDrone).length 1)).take
          (neededCount (List.replicate 3 dfltDrone).length 1)).length ∧
      ((createSquadFromPending dTaxi [⟨0, 0, 0⟩, ⟨1, 0, 0⟩] SquadType.wall 1 5 1
          (List.replicate 3 dfltDrone)).drones.getD
        (((availIndices (List.replicate 3 dfltDrone) SquadType.wall
          (neededCount (List.replicate 3 dfltDrone).length 1)).take
            (neededCount (List.replicate 3 dfltDrone).length 1)).getD 0 0)
        dfltDrone).targetId =
        assignedTarget SquadType.wall 0
          ((availIndices (List.replicate 3 dfltDrone) SquadType.wall
            (neededCount (List.replicate 3 dfltDrone).length 1)).take
              (neededCount (List.replicate 3 dfltDrone).length 1)).length
          (interpolatePath dTaxi [⟨0, 0, 0⟩, ⟨1, 0, 0⟩] 1000).length ∧
      assignedTarget SquadType.wall 0 3 1000 = 0 ∧
      assignedTarget SquadType.wall 2 3 1000 = 999 ∧
      assignedTarget SquadType.wall 0 1 1000 = 0 := by
  have hneed : neededCount (List.replicate 3 dfltDrone).length (1 : ℚ) = 3 := by
    simp only [neededCount, List.length_replicate]
    norm_num
    decide
  have hav : availIndices (List.replicate 3 dfltDrone) SquadType.wall
      (neededCount (List.replicate 3 dfltDrone).length (1 : ℚ)) ≠ [] := by
    rw [hneed]
    decide
  have h := wall_slot_assignment dTaxi [⟨0, 0, 0⟩, ⟨1, 0, 0⟩] 1 5 1
    (List.replicate 3 dfltDrone) (by decide) hav
  refine ⟨by decide, hav, ?_, h.1 0 ?_, h.2.2.2.1 3 1000, ?_, h.2.2.1 0 1000⟩
  · rw [hneed]
    decide
  · rw [hneed]
    decide
  · have hlast := h.2.2.2.2 3 1000 (by decide) (by decide)
    simpa using hlast

/-- C6 (amended) — the per-hit Swarm melee rule as the code implements
it: while Swarm-attacking toward a valid waypoint without arriving, if the
drone's post-move position is within squared melee range 2500 of the
*first* enemy in the list (not the nearest), it emits exactly one damage
event of base `2 × damageMultiplier`, tripled on a crit roll
(`critSample < critChance`), scaled by the stride factor; the damage goes
to the enemy's shield (with overflow carry) when the hit is not from
directly behind and shield > 0, and otherwise to hp — plus an extra 50%
of the damage when a shield is still up.  Out of range of the first
enemy, no damage is emitted. -/
theorem swarm_melee_rule (ctx : UpdateCtx) (i : ℕ) (st : SimState)
    (r : DroneRec) (cmd : SquadCommand) (e : Enemy) (rest : List Enemy)
    (hr : st.drones.getD i dfltDrone = r)
    (hrs : r.state = DState.attacking)
    (hfind : st.commands.find? (fun c => decide (c.id = r.commandId)) = some cmd)
    (htype : cmd.type = SquadType.swarm)
    (hidx : ¬((cmd.path.length : ℤ) ≤ r.targetId))
    (hnoarr : ¬(ctx.d r.pos (cmd.path.getD r.targetId.toNat 0) < ctx.move))
    (hen : st.enemies = e :: rest) :
    (distSq (moveToward ctx.d r.pos (cmd.path.getD r.targetId.toNat 0)
        ctx.move) e.pos < 2500 →
      (updateSingleDrone ctx i st).enemies =
        applyMelee
          (moveToward ctx.d r.pos (cmd.path.getD r.targetId.toNat 0) ctx.move)
          (meleeDamage ctx.damageMultiplier ctx.critChance ctx.critSample
            ctx.stride) e :: rest) ∧
      (¬distSq (moveToward ctx.d r.pos (cmd.path.getD r.targetId.toNat 0)
          ctx.move) e.pos < 2500 →
        (updateSingleDrone ctx i st).enemies = st.enemies) ∧
      meleeDamage ctx.damageMultiplier ctx.critChance ctx.critSample ctx.stride =
        2 * ctx.damageMultiplier *
          (if ctx.critSample < ctx.critChance then 3 else 1) * ctx.stride ∧
      (∀ dmg : ℚ,
        (notFromBehind (moveToward ctx.d r.pos
            (cmd.path.getD r.targetId.toNat 0) ctx.move) e.pos ∧ 0 < e.shield →
          (dmg ≤ e.shield →
            applyMelee (moveToward ctx.d r.pos
                (cmd.path.getD r.targetId.toNat 0) ctx.move) dmg e =
              { e with shield := e.shield - dmg }) ∧
          (e.shield < dmg →
            applyMelee (moveToward ctx.d r.pos
                (cmd.path.getD r.targetId.toNat 0) ctx.move) dmg e =
              { e with hp := e.hp - (dmg - e.shield), shield := 0 })) ∧
        (¬(notFromBehind (moveToward ctx.d r.pos
            (cmd.path.getD r.targetId.toNat 0) ctx.move) e.pos ∧ 0 < e.shield) →
          applyMelee (moveToward ctx.d r.pos
              (cmd.path.getD r.targetId.toNat 0) ctx.move) dmg e =
            { e with hp := if 0 < e.shield then e.hp - dmg - dmg * (1 / 2)
              else e.hp - dmg })) := by
  have hupd : updateSingleDrone ctx i st = updateAttacking ctx i r st := by
    simp only [updateSingleDrone]
    rw [hr, hrs]
  rw [hupd, updateAttacking_swarm_move ctx i r st cmd hfind htype hidx hnoarr]
  refine ⟨fun hin => ?_, fun hout => ?_, meleeDamage_eq _ _ _ _,
    fun dmg => ⟨fun hq => ⟨fun hd => applyMelee_shield_absorb _ _ _ hq hd,
      fun hd => applyMelee_shield_overflow _ _ _ hq hd⟩,
      fun hq => applyMelee_rear _ _ _ hq⟩⟩
  · rw [meleeCheck_hit ctx i
      { r with pos := (moveToward ctx.d r.pos
        (cmd.path.getD r.targetId.toNat 0) ctx.move) } st e rest hen hin]
  · rw [meleeCheck_miss ctx i
      { r with pos := (moveToward ctx.d r.pos
        (cmd.path.getD r.targetId.toNat 0) ctx.move) } st e rest hen hout]

/-- The per-call inputs of the C6 scenario: distance oracle `dTaxi`, unit
movement budget, stride 1, crit sample 1 against crit chance 1/20 (no
crit). -/
def ceCtx : UpdateCtx := UpdateCtx.mk dTaxi 1 1 (1 / 60) [] 0 0 1 1 (1 / 20) 1 1

/-- A Swarm-attacking drone at `(100,0,0)` heading for waypoint 0. -/
def ceDrone : DroneRec := DroneRec.mk DState.attacking 0 1 0 1 ⟨100, 0, 0⟩

/-- The Swarm command this drone executes. -/
def ceCmd : SquadCommand :=
  SquadCommand.mk 1 SquadType.swarm [⟨200, 0, 0⟩, ⟨300, 0, 0⟩] [] 0 0 1

/-- A distant enemy, first in the enemy list. -/
def ceFar : Enemy := Enemy.mk ⟨300, 0, 0⟩ 100 0

/-- An enemy within melee range of the drone — the nearest live enemy. -/
def ceNear : Enemy := Enemy.mk ⟨110, 0, 0⟩ 100 0

/-- The simulation state of the C6 scenario: the nearest enemy is second
in the list. -/
def ceState : SimState := SimState.mk [ceDrone] [ceCmd] [ceFar, ceNear] 0

/-- C6 counterexample.  Part one: a Swarm drone whose post-move position
is within melee range of the nearest live enemy (the second in the list)
emits no damage at all, because the code only ever tests `enemies[0]` —
the enemy list is returned unchanged.  Part two: a hit from directly
behind a shielded enemy (claimed to deal its damage to hp "with no other
hp change") actually removes `1.5 ×` the damage from hp: hp 100 with a
damage-4 hit drops to 94, not 96. -/
theorem swarm_melee_counterexample :
    ((updateSingleDrone ceCtx 0 ceState).enemies = ceState.enemies ∧
      distSq (moveToward dTaxi ⟨100, 0, 0⟩ ⟨200, 0, 0⟩ 1) ceNear.pos < 2500 ∧
      distSq (moveToward dTaxi ⟨100, 0, 0⟩ ⟨200, 0, 0⟩ 1) ceNear.pos <
        distSq (moveToward dTaxi ⟨100, 0, 0⟩ ⟨200, 0, 0⟩ 1) ceFar.pos) ∧
      (applyMelee ⟨20, 0, 0⟩ 4 (Enemy.mk ⟨10, 0, 0⟩ 100 10) =
          Enemy.mk ⟨10, 0, 0⟩ 94 10 ∧
        (94 : ℚ) ≠ 100 - 4) := by
  constructor
  · have h0 : updateSingleDrone ceCtx 0 ceState =
        updateAttacking ceCtx 0 ceDrone ceState := rfl
    have hstep := updateAttacking_swarm_move ceCtx 0 ceDrone ceState ceCmd
      rfl rfl (by decide) (by norm_num [ceCtx, ceDrone, ceCmd, dTaxi, qdist])
    have hout : ¬distSq ({ ceDrone with
        pos := (moveToward ceCtx.d ceDrone.pos
          (ceCmd.path.getD ceDrone.targetId.toNat 0) ceCtx.move) } :
            DroneRec).pos ceFar.pos < 2500 := by
      norm_num [ceCtx, ceDrone, ceCmd, ceFar, moveToward, dTaxi, qdist,
        distSq, normSq, dot3, Vec3.add_def, Vec3.sub_def, Vec3.smul_def]
    have hmiss := meleeCheck_miss ceCtx 0
      { ceDrone with
        pos := (moveToward ceCtx.d ceDrone.pos
          (ceCmd.path.getD ceDrone.targetId.toNat 0) ceCtx.move) }
      ceState ceFar [ceNear] rfl hout
    refine ⟨?_, ?_, ?_⟩
    · rw [h0, hstep, hmiss]
    · norm_num [ceNear, moveToward, dTaxi, qdist, distSq, normSq, dot3,
        Vec3.add_def, Vec3.sub_def, Vec3.smul_def]
    · norm_num [ceNear, ceFar, moveToward, dTaxi, qdist, distSq, normSq,
        dot3, Vec3.add_def, Vec3.sub_def, Vec3.smul_def]
  · have hnb : notFromBehind ⟨20, 0, 0⟩ ⟨10, 0, 0⟩ = false := by
      norm_num [notFromBehind, dot3, normSq, Vec3.zero_x, Vec3.zero_y,
        Vec3.zero_z, Vec3.sub_def]
    have hq : ¬(notFromBehind ⟨20, 0, 0⟩ (Enemy.mk ⟨10, 0, 0⟩ 100 10).pos ∧
        (0 : ℚ) < (Enemy.mk ⟨10, 0, 0⟩ 100 10).shield) := by
      rintro ⟨hb, -⟩
      rw [show (Enemy.mk ⟨10, 0, 0⟩ 100 10).pos = ⟨10, 0, 0⟩ from rfl, hnb] at hb
      cases hb
    rw [applyMelee_rear ⟨20, 0, 0⟩ 4 (Enemy.mk ⟨10, 0, 0⟩ 100 10) hq]
    refine ⟨?_, by norm_num⟩
    simp only [Enemy.mk.injEq]
    norm_num

theorem swarm_melee_rule_witness :
    ((SimState.mk [DroneRec.mk DState.attacking 0 1 0 1 ⟨100, 0, 0⟩]
        [SquadCommand.mk 1 SquadType.swarm [⟨200, 0, 0⟩, ⟨300, 0, 0⟩] [] 0 0 1]
        [Enemy.mk ⟨110, 0, 0⟩ 100 0] 0).drones.getD 0 dfltDrone =
      DroneRec.mk DState.attacking 0 1 0 1 ⟨100, 0, 0⟩) ∧
      distSq (moveToward dTaxi ⟨100, 0, 0⟩ ⟨200, 0, 0⟩ 1)
        (Enemy.mk ⟨110, 0, 0⟩ 100 0).pos < 2500 ∧
      (updateSingleDrone
        (UpdateCtx.mk dTaxi 1 1 (1 / 60) [] 0 0 1 1 (1 / 20) 1 1) 0
        (SimState.mk [DroneRec.mk DState.attacking 0 1 0 1 ⟨100, 0, 0⟩]
          [SquadCommand.mk 1 SquadType.swarm [⟨200, 0, 0⟩, ⟨300, 0, 0⟩] [] 0 0 1]
          [Enemy.mk ⟨110, 0, 0⟩ 100 0] 0)).enemies =
        [applyMelee (moveToward dTaxi ⟨100, 0, 0⟩ ⟨200, 0, 0⟩ 1)
          (meleeDamage 1 (1 / 20) 1 1) (Enemy.mk ⟨110, 0, 0⟩ 100 0)] := by
  have h := swarm_melee_rule
    (UpdateCtx.mk dTaxi 1 1 (1 / 60) [] 0 0 1 1 (1 / 20) 1 1) 0
    (SimState.mk [DroneRec.mk DState.attacking 0 1 0 1 ⟨100, 0, 0⟩]
      [SquadCommand.mk 1 SquadType.swarm [⟨200, 0, 0⟩, ⟨300, 0, 0⟩] [] 0 0 1]
      [Enemy.mk ⟨110, 0, 0⟩ 100 0] 0)
    (DroneRec.mk DState.attacking 0 1 0 1 ⟨100, 0, 0⟩)
    (SquadCommand.mk 1 SquadType.swarm [⟨200, 0, 0⟩, ⟨300, 0, 0⟩] [] 0 0 1)
    (Enemy.mk ⟨110, 0, 0⟩ 100 0) []
    rfl rfl rfl rfl (by decide)
    (by norm_num [dTaxi, qdist]) rfl
  have hin : distSq (moveToward dTaxi ⟨100, 0, 0⟩ ⟨200, 0, 0⟩ 1)
      (Enemy.mk ⟨110, 0, 0⟩ 100 0).pos < 2500 := by
    norm_num [moveToward, dTaxi, qdist, distSq, normSq, dot3,
      Vec3.add_def, Vec3.sub_def, Vec3.smul_def]
  exact ⟨rfl, hin, h.1 hin⟩

end Claims
